import Mathlib

/-!
Verification development for the RandomGift backend.

The repository's algorithmic core consists of:
* `services/gender_association_service.py` — a stateless pairing algorithm
  (`validate_input`, `create_associations`, `associate`);
* `services/association_service.py` — a store-backed sibling
  (`create_random_associations`);
* `storage/memory_store.py` — the soft-delete entity/pairing store
  (`add_participant`, `add_participants_bulk`, `remove_participant`,
  `add_gift`, `add_gifts_bulk`, `remove_gift`, `add_association`,
  `remove_association`, `reset`, `reset_associations`, `get_status`, ...).

Modelling conventions:
* Identifiers are modelled as `Int` (the JSON numbers are converted with
  `int()` in the source; floats are not modelled).
* Python's `list.pop()` removes the *last* element.  Each working list of
  the pairing loops is represented reversed, so that `pop()` becomes head
  removal and the loops become structural recursion.  `create_associations`
  therefore reverses its (already shuffled) inputs before entering the
  loops.
* `random.shuffle` is modelled by quantifying over the order of the
  shuffled list (a permutation of the input); functions that shuffle
  internally take the shuffling as an explicit function parameter.
* Database rows are lists of records in insertion order; SQLAlchemy's
  `query.filter_by(...).first()` is `List.find?` on that order.
-/

namespace RandomGift

/-- The `type` tag of a couple: `"H-F"`, `"F-F"` or `"H-H"`. -/
inductive CoupleType where
  | HF | FF | HH
deriving DecidableEq

/-- A couple as produced by the services:
`{"type": ..., "personne1": ..., "personne2": ...}`. -/
structure Couple where
  ctype : CoupleType
  personne1 : Int
  personne2 : Int
deriving DecidableEq

/-- The identifiers occurring in a list of couples, in order. -/
def idsOf : List Couple → List Int
  | [] => []
  | c :: cs => c.personne1 :: c.personne2 :: idsOf cs

theorem idsOf_append (a b : List Couple) :
    idsOf (a ++ b) = idsOf a ++ idsOf b := by
  induction a with
  | nil => rfl
  | cons c cs ih => simp [idsOf, ih]

/-- Step 1 of `create_associations` (gender_association_service.py lines
111-118): `while femmes_list and hommes_list: homme = hommes_list.pop();
femme = femmes_list.pop(); couples.append({"type": "H-F", "personne1":
homme, "personne2": femme})`.  Both working lists are stored reversed
(head = Python's last element).  Returns the couples made, the remaining
femmes and the remaining hommes (still reversed). -/
def hfLoop : List Int → List Int → List Couple × List Int × List Int
  | [], hs => ([], [], hs)
  | fs, [] => ([], fs, [])
  | f :: fs, h :: hs =>
    let r := hfLoop fs hs
    (⟨.HF, h, f⟩ :: r.1, r.2.1, r.2.2)

/-- Step 2 (lines 121-128): `while len(femmes_list) >= 2: femme1 =
femmes_list.pop(); femme2 = femmes_list.pop(); couples.append({"type":
"F-F", ...})`.  The list is stored reversed.  The identical loop also
appears in association_service.py lines 81-91. -/
def ffLoop : List Int → List Couple × List Int
  | f1 :: f2 :: fs =>
    let r := ffLoop fs
    (⟨.FF, f1, f2⟩ :: r.1, r.2)
  | fs => ([], fs)

/-- Step 3 (lines 131-138), the `H-H` version of `ffLoop`; also
association_service.py lines 94-102. -/
def hhLoop : List Int → List Couple × List Int
  | h1 :: h2 :: hs =>
    let r := hhLoop hs
    (⟨.HH, h1, h2⟩ :: r.1, r.2)
  | hs => ([], hs)

/-- `GenderAssociationService.create_associations` (lines 82-143).  The
source copies and shuffles both lists and then runs the three loops; here
the arguments are the already shuffled copies (theorems quantify over all
permutations of the original inputs), reversed on entry so that `pop()`
is head removal. -/
def create_associations (femmes_shuffled hommes_shuffled : List Int) :
    List Couple :=
  let s1 := hfLoop femmes_shuffled.reverse hommes_shuffled.reverse
  let s2 := ffLoop s1.2.1
  let s3 := hhLoop s1.2.2
  s1.1 ++ s2.1 ++ s3.1

/-! ### Basic shape of the loops -/

theorem hfLoop_eq (fs hs : List Int) :
    hfLoop fs hs =
      (List.zipWith (fun f h => Couple.mk .HF h f) fs hs,
       fs.drop hs.length, hs.drop fs.length) := by
  induction fs generalizing hs with
  | nil => cases hs <;> simp [hfLoop]
  | cons f fs ih =>
    cases hs with
    | nil => simp [hfLoop]
    | cons h hs => simp [hfLoop, ih]

theorem ffLoop_ids : ∀ l : List Int, idsOf (ffLoop l).1 ++ (ffLoop l).2 = l
  | [] => rfl
  | [f] => rfl
  | f1 :: f2 :: fs => by
    have ih := ffLoop_ids fs
    simp only [ffLoop, idsOf] at *
    simp [ih]

theorem hhLoop_ids : ∀ l : List Int, idsOf (hhLoop l).1 ++ (hhLoop l).2 = l
  | [] => rfl
  | [h] => rfl
  | h1 :: h2 :: hs => by
    have ih := hhLoop_ids hs
    simp only [hhLoop, idsOf] at *
    simp [ih]

theorem ffLoop_len : ∀ l : List Int,
    (ffLoop l).1.length = l.length / 2 ∧ (ffLoop l).2.length = l.length % 2
  | [] => by simp [ffLoop]
  | [f] => by simp [ffLoop]
  | f1 :: f2 :: fs => by
    have ih := ffLoop_len fs
    simp only [ffLoop, List.length_cons]
    constructor
    · simp [ih.1]; omega
    · simp [ih.2]; omega

theorem hhLoop_len : ∀ l : List Int,
    (hhLoop l).1.length = l.length / 2 ∧ (hhLoop l).2.length = l.length % 2
  | [] => by simp [hhLoop]
  | [h] => by simp [hhLoop]
  | h1 :: h2 :: hs => by
    have ih := hhLoop_len hs
    simp only [hhLoop, List.length_cons]
    constructor
    · simp [ih.1]; omega
    · simp [ih.2]; omega

theorem ffLoop_type : ∀ l : List Int, ∀ c ∈ (ffLoop l).1, c.ctype = .FF
  | [] => by simp [ffLoop]
  | [f] => by simp [ffLoop]
  | f1 :: f2 :: fs => by
    have ih := ffLoop_type fs
    simp only [ffLoop, List.mem_cons]
    rintro c (rfl | hc)
    · rfl
    · exact ih c hc

theorem hhLoop_type : ∀ l : List Int, ∀ c ∈ (hhLoop l).1, c.ctype = .HH
  | [] => by simp [hhLoop]
  | [h] => by simp [hhLoop]
  | h1 :: h2 :: hs => by
    have ih := hhLoop_type hs
    simp only [hhLoop, List.mem_cons]
    rintro c (rfl | hc)
    · rfl
    · exact ih c hc

theorem ffLoop_mem : ∀ l : List Int, ∀ c ∈ (ffLoop l).1,
    c.personne1 ∈ l ∧ c.personne2 ∈ l
  | [] => by simp [ffLoop]
  | [f] => by simp [ffLoop]
  | f1 :: f2 :: fs => by
    have ih := ffLoop_mem fs
    simp only [ffLoop, List.mem_cons]
    rintro c (rfl | hc)
    · simp
    · have := ih c hc
      exact ⟨Or.inr (Or.inr this.1), Or.inr (Or.inr this.2)⟩

theorem hhLoop_mem : ∀ l : List Int, ∀ c ∈ (hhLoop l).1,
    c.personne1 ∈ l ∧ c.personne2 ∈ l
  | [] => by simp [hhLoop]
  | [h] => by simp [hhLoop]
  | h1 :: h2 :: hs => by
    have ih := hhLoop_mem hs
    simp only [hhLoop, List.mem_cons]
    rintro c (rfl | hc)
    · simp
    · have := ih c hc
      exact ⟨Or.inr (Or.inr this.1), Or.inr (Or.inr this.2)⟩

theorem zip_hf_type (fs hs : List Int) :
    ∀ c ∈ List.zipWith (fun f h => Couple.mk .HF h f) fs hs,
      c.ctype = .HF ∧ c.personne1 ∈ hs ∧ c.personne2 ∈ fs := by
  induction fs generalizing hs with
  | nil => simp
  | cons f fs ih =>
    cases hs with
    | nil => simp
    | cons h hs =>
      simp only [List.zipWith_cons_cons, List.mem_cons]
      rintro c (rfl | hc)
      · simp
      · have := ih hs c hc
        exact ⟨this.1, Or.inr this.2.1, Or.inr this.2.2⟩

theorem zip_hf_ids_perm (fs hs : List Int) :
    (idsOf (List.zipWith (fun f h => Couple.mk .HF h f) fs hs)).Perm
      (fs.take hs.length ++ hs.take fs.length) := by
  induction fs generalizing hs with
  | nil => simp [idsOf]
  | cons f fs ih =>
    cases hs with
    | nil => simp [idsOf]
    | cons h hs =>
      simp only [List.zipWith_cons_cons, idsOf, List.length_cons,
        List.take_succ_cons]
      refine List.Perm.trans
        (List.Perm.cons _ (List.Perm.cons _ (ih hs))) ?_
      refine List.Perm.trans (List.Perm.swap _ _ _) ?_
      refine List.Perm.trans (List.Perm.cons _ List.perm_middle.symm) ?_
      simp

/-! ### Decomposition of `create_associations` -/

theorem create_associations_eq (fs hs : List Int) :
    create_associations fs hs =
      List.zipWith (fun f h => Couple.mk .HF h f) fs.reverse hs.reverse
        ++ (ffLoop (fs.reverse.drop hs.length)).1
        ++ (hhLoop (hs.reverse.drop fs.length)).1 := by
  simp [create_associations, hfLoop_eq]

theorem create_associations_ids_perm (fs hs : List Int) :
    (idsOf (create_associations fs hs)
      ++ (ffLoop (fs.reverse.drop hs.length)).2
      ++ (hhLoop (hs.reverse.drop fs.length)).2).Perm (fs ++ hs) := by
  rw [← Multiset.coe_eq_coe, create_associations_eq, idsOf_append, idsOf_append]
  simp only [← Multiset.coe_add]
  have h3 : ((idsOf (List.zipWith (fun f h => Couple.mk .HF h f)
        fs.reverse hs.reverse) : List Int) : Multiset Int)
      = ↑(fs.reverse.take hs.length) + ↑(hs.reverse.take fs.length) := by
    rw [Multiset.coe_add]
    refine Multiset.coe_eq_coe.mpr ?_
    simpa using zip_hf_ids_perm fs.reverse hs.reverse
  have h1 : ((idsOf (ffLoop (fs.reverse.drop hs.length)).1 : List Int) : Multiset Int)
      + ↑(ffLoop (fs.reverse.drop hs.length)).2
      = ↑(fs.reverse.drop hs.length) := by
    rw [Multiset.coe_add, ffLoop_ids]
  have h2 : ((idsOf (hhLoop (hs.reverse.drop fs.length)).1 : List Int) : Multiset Int)
      + ↑(hhLoop (hs.reverse.drop fs.length)).2
      = ↑(hs.reverse.drop fs.length) := by
    rw [Multiset.coe_add, hhLoop_ids]
  have h4 : (↑(fs.reverse.take hs.length) + ↑(fs.reverse.drop hs.length)
      : Multiset Int) = ↑fs := by
    rw [Multiset.coe_add, List.take_append_drop, Multiset.coe_reverse]
  have h5 : (↑(hs.reverse.take fs.length) + ↑(hs.reverse.drop fs.length)
      : Multiset Int) = ↑hs := by
    rw [Multiset.coe_add, List.take_append_drop, Multiset.coe_reverse]
  rw [h3, ← h4, ← h5, ← h1, ← h2]
  abel

theorem create_associations_types (fs hs : List Int) :
    ∀ c ∈ create_associations fs hs,
      (c.ctype = .HF → c.personne1 ∈ hs ∧ c.personne2 ∈ fs) ∧
      (c.ctype = .FF → c.personne1 ∈ fs ∧ c.personne2 ∈ fs) ∧
      (c.ctype = .HH → c.personne1 ∈ hs ∧ c.personne2 ∈ hs) := by
  intro c hc
  rw [create_associations_eq] at hc
  rcases List.mem_append.mp hc with hc | hc2
  · rcases List.mem_append.mp hc with hcz | hcf
    · have hz := zip_hf_type fs.reverse hs.reverse c hcz
      have hp1 : c.personne1 ∈ hs := by
        have := hz.2.1; rwa [List.mem_reverse] at this
      have hp2 : c.personne2 ∈ fs := by
        have := hz.2.2; rwa [List.mem_reverse] at this
      refine ⟨fun _ => ⟨hp1, hp2⟩, fun hq => ?_, fun hq => ?_⟩ <;>
        simp [hz.1] at hq
    · have ht := ffLoop_type _ c hcf
      have hm := ffLoop_mem _ c hcf
      have hp1 : c.personne1 ∈ fs := by
        have := List.mem_of_mem_drop hm.1; rwa [List.mem_reverse] at this
      have hp2 : c.personne2 ∈ fs := by
        have := List.mem_of_mem_drop hm.2; rwa [List.mem_reverse] at this
      refine ⟨fun hq => ?_, fun _ => ⟨hp1, hp2⟩, fun hq => ?_⟩ <;>
        simp [ht] at hq
  · have ht := hhLoop_type _ c hc2
    have hm := hhLoop_mem _ c hc2
    have hp1 : c.personne1 ∈ hs := by
      have := List.mem_of_mem_drop hm.1; rwa [List.mem_reverse] at this
    have hp2 : c.personne2 ∈ hs := by
      have := List.mem_of_mem_drop hm.2; rwa [List.mem_reverse] at this
    refine ⟨fun hq => ?_, fun hq => ?_, fun _ => ⟨hp1, hp2⟩⟩ <;>
      simp [ht] at hq

theorem idsOf_nodup_distinct : ∀ cs : List Couple, (idsOf cs).Nodup →
    ∀ c ∈ cs, c.personne1 ≠ c.personne2
  | [] => by simp
  | c :: cs => by
    intro h d hd
    simp only [idsOf, List.nodup_cons] at h
    rcases List.mem_cons.mp hd with rfl | hd2
    · intro heq
      exact h.1 (heq ▸ List.mem_cons_self _ _)
    · exact idsOf_nodup_distinct cs h.2.2 d hd2

theorem create_associations_ids_nodup (fs hs : List Int)
    (hfs : fs.Nodup) (hhs : hs.Nodup) (hd : ∀ x ∈ fs, x ∉ hs) :
    (idsOf (create_associations fs hs)
      ++ (ffLoop (fs.reverse.drop hs.length)).2
      ++ (hhLoop (hs.reverse.drop fs.length)).2).Nodup := by
  have hfh : (fs ++ hs).Nodup := by
    rw [List.nodup_append]
    exact ⟨hfs, hhs, hd⟩
  exact ((create_associations_ids_perm fs hs).nodup_iff).mpr hfh

/-- C2: for duplicate-free disjoint inputs (and any shuffle of them), each
couple joins two distinct identifiers, no identifier appears in more than
one couple, and the kind tag reflects the source list of each member. -/
theorem create_associations_invariants
    (W M fs hs : List Int)
    (hW : W.Nodup) (hM : M.Nodup) (hWM : ∀ x ∈ W, x ∉ M)
    (pf : fs.Perm W) (ph : hs.Perm M) :
    (idsOf (create_associations fs hs)).Nodup ∧
    ∀ c ∈ create_associations fs hs,
      c.personne1 ≠ c.personne2 ∧
      (c.ctype = .HF ↔ c.personne1 ∈ M ∧ c.personne2 ∈ W) ∧
      (c.ctype = .FF ↔ c.personne1 ∈ W ∧ c.personne2 ∈ W) ∧
      (c.ctype = .HH ↔ c.personne1 ∈ M ∧ c.personne2 ∈ M) := by
  have hfs : fs.Nodup := pf.symm.nodup hW
  have hhs : hs.Nodup := ph.symm.nodup hM
  have hfm : ∀ x, x ∈ fs ↔ x ∈ W := fun x => pf.mem_iff
  have hhm : ∀ x, x ∈ hs ↔ x ∈ M := fun x => ph.mem_iff
  have hd : ∀ x ∈ fs, x ∉ hs := by
    intro x hx hx2
    exact hWM x ((hfm x).mp hx) ((hhm x).mp hx2)
  have hbig := create_associations_ids_nodup fs hs hfs hhs hd
  have hids : (idsOf (create_associations fs hs)).Nodup :=
    ((List.nodup_append.mp (List.nodup_append.mp hbig).1).1)
  refine ⟨hids, fun c hc => ?_⟩
  have hty := create_associations_types fs hs c hc
  have hne := idsOf_nodup_distinct _ hids c hc
  refine ⟨hne, ?_, ?_, ?_⟩ <;> cases hct : c.ctype
  · exact iff_of_true rfl
      ⟨(hhm _).mp (hty.1 hct).1, (hfm _).mp (hty.1 hct).2⟩
  · exact iff_of_false (by simp)
      (fun hp => hWM _ ((hfm _).mp (hty.2.1 hct).1) hp.1)
  · exact iff_of_false (by simp)
      (fun hp => hWM _ hp.2 ((hhm _).mp (hty.2.2 hct).2))
  · exact iff_of_false (by simp)
      (fun hp => hWM _ hp.1 ((hhm _).mp (hty.1 hct).1))
  · exact iff_of_true rfl
      ⟨(hfm _).mp (hty.2.1 hct).1, (hfm _).mp (hty.2.1 hct).2⟩
  · exact iff_of_false (by simp)
      (fun hp => hWM _ hp.1 ((hhm _).mp (hty.2.2 hct).1))
  · exact iff_of_false (by simp)
      (fun hp => hWM _ ((hfm _).mp (hty.1 hct).2) hp.2)
  · exact iff_of_false (by simp)
      (fun hp => hWM _ ((hfm _).mp (hty.2.1 hct).1) hp.1)
  · exact iff_of_true rfl
      ⟨(hhm _).mp (hty.2.2 hct).1, (hhm _).mp (hty.2.2 hct).2⟩

theorem create_associations_invariants_witness :
    (idsOf (create_associations [1, 2, 3, 4] [10, 11])).Nodup ∧
    ∀ c ∈ create_associations [1, 2, 3, 4] [10, 11],
      c.personne1 ≠ c.personne2 ∧
      (c.ctype = .HF ↔ c.personne1 ∈ [10, 11] ∧ c.personne2 ∈ [1, 2, 3, 4]) ∧
      (c.ctype = .FF ↔ c.personne1 ∈ [1, 2, 3, 4] ∧ c.personne2 ∈ [1, 2, 3, 4]) ∧
      (c.ctype = .HH ↔ c.personne1 ∈ [10, 11] ∧ c.personne2 ∈ [10, 11]) :=
  create_associations_invariants [1, 2, 3, 4] [10, 11] [1, 2, 3, 4] [10, 11]
    (by decide) (by decide) (by decide) (List.Perm.refl _) (List.Perm.refl _)

/-- C1: the couple list is min(|W|,|M|) cross couples followed by
floor((max-min)/2) same-kind couples (F-F when women remain, H-H when men
remain), and (|W|+|M|) mod 2 identifiers stay unpaired. -/
theorem create_associations_shape
    (W M fs hs : List Int)
    (hW : W.Nodup) (hM : M.Nodup) (hWM : ∀ x ∈ W, x ∉ M)
    (pf : fs.Perm W) (ph : hs.Perm M) :
    ∃ pre post,
      create_associations fs hs = pre ++ post ∧
      pre.length = min W.length M.length ∧
      (∀ c ∈ pre, c.ctype = .HF) ∧
      post.length = (max W.length M.length - min W.length M.length) / 2 ∧
      (∀ c ∈ post, c.ctype =
        if M.length ≤ W.length then CoupleType.FF else CoupleType.HH) ∧
      ((W ++ M).filter
          (fun x => decide (x ∉ idsOf (create_associations fs hs)))).length
        = (W.length + M.length) % 2 := by
  have hlf : fs.length = W.length := pf.length_eq
  have hlh : hs.length = M.length := ph.length_eq
  refine ⟨List.zipWith (fun f h => Couple.mk .HF h f) fs.reverse hs.reverse,
    (ffLoop (fs.reverse.drop hs.length)).1
      ++ (hhLoop (hs.reverse.drop fs.length)).1,
    ?_, ?_, ?_, ?_, ?_, ?_⟩
  · rw [create_associations_eq, List.append_assoc]
  · simp [hlf, hlh]
  · exact fun c hc => (zip_hf_type _ _ c hc).1
  · have e1 := (ffLoop_len (fs.reverse.drop hs.length)).1
    have e2 := (hhLoop_len (hs.reverse.drop fs.length)).1
    simp only [List.length_append, e1, e2, List.length_drop,
      List.length_reverse]
    omega
  · intro c hc
    rcases List.mem_append.mp hc with hc | hc
    · have ht := ffLoop_type _ c hc
      by_cases hb : M.length ≤ W.length
      · simp [hb, ht]
      · have hnil : fs.reverse.drop hs.length = [] := by
          apply List.drop_eq_nil_of_le
          simp only [List.length_reverse]
          omega
        rw [hnil] at hc
        simp [ffLoop] at hc
    · have ht := hhLoop_type _ c hc
      by_cases hb : M.length ≤ W.length
      · have hnil : hs.reverse.drop fs.length = [] := by
          apply List.drop_eq_nil_of_le
          simp only [List.length_reverse]
          omega
        rw [hnil] at hc
        simp [hhLoop] at hc
      · simp [hb, ht]
  · have hfs : fs.Nodup := pf.symm.nodup hW
    have hhs : hs.Nodup := ph.symm.nodup hM
    have hd : ∀ x ∈ fs, x ∉ hs := by
      intro x hx hx2
      exact hWM x (pf.mem_iff.mp hx) (ph.mem_iff.mp hx2)
    have hbig := create_associations_ids_nodup fs hs hfs hhs hd
    have hperm := create_associations_ids_perm fs hs
    have hWMp : (fs ++ hs).Perm (W ++ M) := pf.append ph
    have hfil := ((hperm.trans hWMp).symm.filter
      (fun x => decide (x ∉ idsOf (create_associations fs hs)))).length_eq
    rw [hfil]
    have d1 : List.Disjoint (idsOf (create_associations fs hs))
        (ffLoop (fs.reverse.drop hs.length)).2 :=
      (List.nodup_append.mp (List.nodup_append.mp hbig).1).2.2
    have d2 : List.Disjoint
        (idsOf (create_associations fs hs)
          ++ (ffLoop (fs.reverse.drop hs.length)).2)
        (hhLoop (hs.reverse.drop fs.length)).2 :=
      (List.nodup_append.mp hbig).2.2
    rw [List.filter_append, List.filter_append]
    have hnil : (idsOf (create_associations fs hs)).filter
        (fun x => decide (x ∉ idsOf (create_associations fs hs))) = [] := by
      apply List.filter_eq_nil_iff.mpr
      intro a ha
      simp [ha]
    have hf1 : ((ffLoop (fs.reverse.drop hs.length)).2).filter
        (fun x => decide (x ∉ idsOf (create_associations fs hs)))
        = (ffLoop (fs.reverse.drop hs.length)).2 := by
      apply List.filter_eq_self.mpr
      intro a ha
      simp only [decide_eq_true_eq]
      exact fun hin => d1 hin ha
    have hf2 : ((hhLoop (hs.reverse.drop fs.length)).2).filter
        (fun x => decide (x ∉ idsOf (create_associations fs hs)))
        = (hhLoop (hs.reverse.drop fs.length)).2 := by
      apply List.filter_eq_self.mpr
      intro a ha
      simp only [decide_eq_true_eq]
      exact fun hin => d2 (List.mem_append_left _ hin) ha
    rw [hnil, hf1, hf2]
    have e1 := (ffLoop_len (fs.reverse.drop hs.length)).2
    have e2 := (hhLoop_len (hs.reverse.drop fs.length)).2
    simp only [List.length_append, List.length_nil, e1, e2,
      List.length_drop, List.length_reverse]
    omega

theorem create_associations_shape_witness :
    ∃ pre post,
      create_associations [1, 2, 3, 4] [10, 11] = pre ++ post ∧
      pre.length = min (List.length [1, 2, 3, 4]) (List.length [10, 11]) ∧
      (∀ c ∈ pre, c.ctype = .HF) ∧
      post.length = (max (List.length [1, 2, 3, 4]) (List.length [10, 11])
        - min (List.length [1, 2, 3, 4]) (List.length [10, 11])) / 2 ∧
      (∀ c ∈ post, c.ctype =
        if List.length [10, 11] ≤ List.length [1, 2, 3, 4]
        then CoupleType.FF else CoupleType.HH) ∧
      (([1, 2, 3, 4] ++ [10, 11]).filter
          (fun x => decide
            (x ∉ idsOf (create_associations [1, 2, 3, 4] [10, 11])))).length
        = (List.length [1, 2, 3, 4] + List.length [10, 11]) % 2 :=
  create_associations_shape [1, 2, 3, 4] [10, 11] [1, 2, 3, 4] [10, 11]
    (by decide) (by decide) (by decide) (List.Perm.refl _) (List.Perm.refl _)

/-! ### JSON payloads and `validate_input` (gender_association_service.py) -/

/-- JSON values as delivered by `request.get_json(silent=True)`.  Numbers
are modelled as integers (the service converts them with `int()`; floats
are not modelled). -/
inductive JValue where
  | jnum (n : Int)
  | jbool (b : Bool)
  | jstr (s : String)
  | jlist (l : List JValue)
  | jobj (kvs : List (String × JValue))
  | jnull

/-- Python truthiness of a JSON value (`if not data`). -/
def pyFalsy : JValue → Bool
  | .jnull => true
  | .jbool b => !b
  | .jnum n => n == 0
  | .jstr s => s == ""
  | .jlist l => l.isEmpty
  | .jobj kvs => kvs.isEmpty

/-- `needle in hay` for Python strings: contiguous substring. -/
def strContains (hay needle : String) : Bool :=
  (List.range (hay.length + 1)).any
    (fun i => (hay.toList.drop i).take needle.length == needle.toList)

/-- `data.get(k)` for a dict: first binding of the key. -/
def getKey (kvs : List (String × JValue)) (k : String) : Option JValue :=
  (kvs.find? (fun kv => kv.1 == k)).map Prod.snd

/-- Python's `k in data`: key membership for dicts, element membership
for lists, substring for strings; numbers, booleans and `None` are not
iterable (`TypeError`, modelled as `none`). -/
def inCheck (v : JValue) (k : String) : Option Bool :=
  match v with
  | .jobj kvs => some (kvs.any (fun kv => kv.1 == k))
  | .jlist l =>
    some (l.any (fun x => match x with | .jstr s => s == k | _ => false))
  | .jstr s => some (strContains s k)
  | _ => none

/-- `isinstance(num, (int, float)) and not isinstance(num, bool)`. -/
def isNum : JValue → Bool
  | .jnum _ => true
  | _ => false

/-- The numbers among a list of JSON values. -/
def numsOf (l : List JValue) : List Int :=
  l.filterMap fun v => match v with | .jnum n => some n | _ => none

/-- Element-wise number check plus the `int()` conversion of lines 56-66:
`some` of the converted list when every element is a number. -/
def asNums : List JValue → Option (List Int)
  | [] => some []
  | .jnum n :: rest => (asNums rest).map (fun ns => n :: ns)
  | _ => none

/-- The validation error messages of `validate_input` (the French message
strings are abstracted to tags). -/
inductive VError where
  | missingData | femmesRequired | hommesRequired
  | femmesNotList | hommesNotList | bothEmpty
  | femmesNotNumber | hommesNotNumber
  | femmesDup | hommesDup | commonNumbers
deriving DecidableEq

/-- Outcome of `validate_input`: an uncaught Python exception, a
`(False, message, {})` triple, or `(True, "", validated data)`. -/
inductive VOutcome where
  | crash
  | failure (e : VError)
  | valid (femmes hommes : List Int)
deriving DecidableEq

/-- `GenderAssociationService.validate_input` (lines 21-80), including
the uncaught exception paths for payloads that are not dicts:
`'femmes' not in data` raises `TypeError` on numbers/booleans, and
`data.get` raises `AttributeError` on lists/strings that pass the
membership tests. -/
def validate_input (data : Option JValue) : VOutcome :=
  match data with
  | none => .failure .missingData
  | some v =>
    if pyFalsy v then .failure .missingData
    else
      match inCheck v "femmes" with
      | none => .crash
      | some false => .failure .femmesRequired
      | some true =>
        match inCheck v "hommes" with
        | none => .crash
        | some false => .failure .hommesRequired
        | some true =>
          match v with
          | .jobj kvs =>
            match (getKey kvs "femmes").getD (.jlist []) with
            | .jlist fl =>
              (match (getKey kvs "hommes").getD (.jlist []) with
               | .jlist hl =>
                 if fl.length == 0 && hl.length == 0 then .failure .bothEmpty
                 else
                   match asNums fl with
                   | none => .failure .femmesNotNumber
                   | some fints =>
                     match asNums hl with
                     | none => .failure .hommesNotNumber
                     | some hints =>
                       if fints.Nodup then
                         if hints.Nodup then
                           if fints.any (fun x => hints.contains x)
                           then .failure .commonNumbers
                           else .valid fints hints
                         else .failure .hommesDup
                       else .failure .femmesDup
               | _ => .failure .hommesNotList)
            | _ => .failure .femmesNotList
          | _ => .crash

/-- Statistics block of the service results. -/
structure Stats where
  total_personnes : Nat
  total_couples : Nat
  couples_HF : Nat
  couples_FF : Nat
  couples_HH : Nat
  personnes_non_associees : Nat
deriving DecidableEq

/-- `sum(1 for c in couples if c.type == t)`. -/
def countType (cs : List Couple) (t : CoupleType) : Nat :=
  (cs.filter (fun c => c.ctype == t)).length

/-- Outcome of the stateless `associate` entry point. -/
inductive AOutcome where
  | crash
  | failure (e : VError)
  | ok (couples : List Couple) (stats : Stats)
deriving DecidableEq

/-- `GenderAssociationService.associate` (lines 145-193); `sf`/`sm` model
the `random.shuffle` calls inside `create_associations`. -/
def associate (sf sm : List Int → List Int) (data : Option JValue) :
    AOutcome :=
  match validate_input data with
  | .crash => .crash
  | .failure e => .failure e
  | .valid femmes hommes =>
    let couples := create_associations (sf femmes) (sm hommes)
    let total := femmes.length + hommes.length
    .ok couples
      ⟨total, couples.length, countType couples .HF, countType couples .FF,
        countType couples .HH, total - 2 * couples.length⟩

/-- The claim's notion of a malformed pair of fields (claim-side
definition, to compare with `validate_input`): non-list or missing field,
a non-number element, a duplicate inside one list, a number on both
sides, or two empty lists. -/
def MalformedFields : Option JValue → Option JValue → Prop
  | some (.jlist fl), some (.jlist hl) =>
    (∃ v ∈ fl, isNum v = false) ∨ (∃ v ∈ hl, isNum v = false) ∨
    ¬(numsOf fl).Nodup ∨ ¬(numsOf hl).Nodup ∨
    (∃ x, x ∈ numsOf fl ∧ x ∈ numsOf hl) ∨
    (fl = [] ∧ hl = [])
  | _, _ => True

/-- The claim's notion of a malformed payload. -/
def MalformedPayload : Option JValue → Prop
  | some (.jobj kvs) => MalformedFields (getKey kvs "femmes") (getKey kvs "hommes")
  | _ => True

theorem getKey_any_eq (kvs : List (String × JValue)) (k : String) :
    kvs.any (fun kv => kv.1 == k) = (getKey kvs k).isSome := by
  induction kvs with
  | nil => rfl
  | cons kv rest ih =>
    by_cases h : kv.1 == k
    · simp [getKey, List.find?_cons, h]
    · simp only [List.any_cons, h, Bool.false_or]
      rw [ih]
      simp [getKey, List.find?_cons, h]

theorem asNums_none_iff (l : List JValue) :
    asNums l = none ↔ ∃ v ∈ l, isNum v = false := by
  induction l with
  | nil => simp [asNums]
  | cons v rest ih =>
    cases v <;> simp [asNums, isNum, ih]

theorem asNums_some (l : List JValue) (ns : List Int)
    (h : asNums l = some ns) :
    ns = numsOf l ∧ ∀ v ∈ l, isNum v = true := by
  induction l generalizing ns with
  | nil =>
    simp only [asNums, Option.some.injEq] at h
    simp [← h, numsOf]
  | cons v rest ih =>
    cases v with
    | jnum n =>
      simp only [asNums, Option.map_eq_some'] at h
      obtain ⟨a, ha, rfl⟩ := h
      obtain ⟨h1, h2⟩ := ih a ha
      subst h1
      refine ⟨by simp [numsOf, List.filterMap_cons], ?_⟩
      intro v hv
      rcases List.mem_cons.mp hv with rfl | hv
      · rfl
      · exact h2 v hv
    | jbool b => simp [asNums] at h
    | jstr s => simp [asNums] at h
    | jlist l2 => simp [asNums] at h
    | jobj kvs => simp [asNums] at h
    | jnull => simp [asNums] at h

/-- `validate_input`, settled on payloads that are absent or JSON
objects: it fails exactly on malformed payloads and returns validated
lists otherwise (in particular it never raises there). -/
theorem validate_input_spec (data : Option JValue)
    (hobj : data = none ∨ ∃ kvs, data = some (.jobj kvs)) :
    ((∃ e, validate_input data = .failure e) ↔ MalformedPayload data) ∧
    (¬MalformedPayload data →
      ∃ fs hs, validate_input data = .valid fs hs) := by
  have settle : ∀ (d : Option JValue) (e : VError),
      validate_input d = .failure e → MalformedPayload d →
      ((∃ e2, validate_input d = .failure e2) ↔ MalformedPayload d) ∧
      (¬MalformedPayload d → ∃ fs hs, validate_input d = .valid fs hs) :=
    fun d e he hm => ⟨iff_of_true ⟨e, he⟩ hm, fun hnm => absurd hm hnm⟩
  rcases hobj with rfl | ⟨kvs, rfl⟩
  · exact settle none .missingData rfl trivial
  · by_cases hemp : kvs.isEmpty
    · have hk : kvs = [] := by simpa using hemp
      subst hk
      exact settle _ .missingData rfl
        (by simp [MalformedPayload, MalformedFields, getKey])
    · have hfalsy : pyFalsy (JValue.jobj kvs) = false := by
        simpa [pyFalsy] using hemp
      cases hf : getKey kvs "femmes" with
      | none =>
        have hany : kvs.any (fun kv => kv.1 == "femmes") = false := by
          rw [getKey_any_eq, hf]; rfl
        refine settle _ .femmesRequired ?_ ?_
        · simp [validate_input, hfalsy, inCheck, hany]
        · simp [MalformedPayload, MalformedFields, hf]
      | some fv =>
        have hanyf : kvs.any (fun kv => kv.1 == "femmes") = true := by
          rw [getKey_any_eq, hf]; rfl
        cases hh : getKey kvs "hommes" with
        | none =>
          have hanyh : kvs.any (fun kv => kv.1 == "hommes") = false := by
            rw [getKey_any_eq, hh]; rfl
          refine settle _ .hommesRequired ?_ ?_
          · simp [validate_input, hfalsy, inCheck, hanyf, hanyh]
          · cases fv <;> simp [MalformedPayload, MalformedFields, hf, hh]
        | some hv =>
          have hanyh : kvs.any (fun kv => kv.1 == "hommes") = true := by
            rw [getKey_any_eq, hh]; rfl
          cases fv with
          | jlist fl =>
            cases hv with
            | jlist hl =>
              have hval : validate_input (some (.jobj kvs)) =
                  (if fl.length == 0 && hl.length == 0 then
                    VOutcome.failure .bothEmpty
                  else
                    match asNums fl with
                    | none => .failure .femmesNotNumber
                    | some fints =>
                      match asNums hl with
                      | none => .failure .hommesNotNumber
                      | some hints =>
                        if fints.Nodup then
                          if hints.Nodup then
                            if fints.any (fun x => hints.contains x)
                            then .failure .commonNumbers
                            else .valid fints hints
                          else .failure .hommesDup
                        else .failure .femmesDup) := by
                simp [validate_input, hfalsy, inCheck, hanyf, hanyh, hf, hh]
              have hmal : MalformedPayload (some (JValue.jobj kvs)) =
                  ((∃ v ∈ fl, isNum v = false) ∨ (∃ v ∈ hl, isNum v = false) ∨
                    ¬(numsOf fl).Nodup ∨ ¬(numsOf hl).Nodup ∨
                    (∃ x, x ∈ numsOf fl ∧ x ∈ numsOf hl) ∨
                    (fl = [] ∧ hl = [])) := by
                simp [MalformedPayload, MalformedFields, hf, hh]
              rw [hval, hmal]
              by_cases h0 : fl = [] ∧ hl = []
              · obtain ⟨rfl, rfl⟩ := h0
                constructor
                · exact iff_of_true ⟨.bothEmpty, by simp⟩
                    (Or.inr (Or.inr (Or.inr (Or.inr (Or.inr ⟨rfl, rfl⟩)))))
                · exact fun hnm => absurd
                    (Or.inr (Or.inr (Or.inr (Or.inr (Or.inr ⟨rfl, rfl⟩)))))
                    hnm
              · have h0' : (fl.length == 0 && hl.length == 0) = false := by
                  rcases fl with _ | ⟨a, fl⟩ <;> rcases hl with _ | ⟨b, hl⟩ <;>
                    simp_all
                rw [h0']
                simp only [Bool.false_eq_true, if_false]
                cases ha : asNums fl with
                | none =>
                  constructor
                  · exact iff_of_true ⟨.femmesNotNumber, rfl⟩
                      (Or.inl ((asNums_none_iff fl).mp ha))
                  · exact fun hnm => absurd
                      (Or.inl ((asNums_none_iff fl).mp ha)) hnm
                | some fints =>
                  obtain ⟨hfeq, hfall⟩ := asNums_some fl fints ha
                  subst hfeq
                  cases hb : asNums hl with
                  | none =>
                    constructor
                    · exact iff_of_true ⟨.hommesNotNumber, rfl⟩
                        (Or.inr (Or.inl ((asNums_none_iff hl).mp hb)))
                    · exact fun hnm => absurd
                        (Or.inr (Or.inl ((asNums_none_iff hl).mp hb))) hnm
                  | some hints =>
                    obtain ⟨hheq, hhall⟩ := asNums_some hl hints hb
                    subst hheq
                    by_cases hnf : (numsOf fl).Nodup
                    · by_cases hnh : (numsOf hl).Nodup
                      · by_cases hcom : (numsOf fl).any
                            (fun x => (numsOf hl).contains x)
                        · have hcomP : ∃ x ∈ numsOf fl, x ∈ numsOf hl := by
                            simpa using hcom
                          constructor
                          · exact iff_of_true
                              ⟨.commonNumbers, by simp [hnf, hnh, hcomP]⟩
                              (Or.inr (Or.inr (Or.inr (Or.inr
                                (Or.inl hcomP)))))
                          · exact fun hnm => absurd
                              (Or.inr (Or.inr (Or.inr (Or.inr
                                (Or.inl hcomP))))) hnm
                        · have hcomP : ¬∃ x ∈ numsOf fl, x ∈ numsOf hl := by
                            simpa using hcom
                          constructor
                          · refine iff_of_false ?_ ?_
                            · rintro ⟨e, he⟩
                              simp [hnf, hnh, hcomP] at he
                            · rintro (⟨v, hv, hnum⟩ | ⟨v, hv, hnum⟩ | h | h |
                                ⟨x, hx1, hx2⟩ | ⟨hfl, hhl⟩)
                              · rw [hfall v hv] at hnum; cases hnum
                              · rw [hhall v hv] at hnum; cases hnum
                              · exact h hnf
                              · exact h hnh
                              · exact hcomP ⟨x, hx1, hx2⟩
                              · exact h0 ⟨hfl, hhl⟩
                          · exact fun _ => ⟨numsOf fl, numsOf hl,
                              by simp [hnf, hnh, hcomP]⟩
                      · constructor
                        · exact iff_of_true ⟨.hommesDup, by simp [hnf, hnh]⟩
                            (Or.inr (Or.inr (Or.inr (Or.inl hnh))))
                        · exact fun hnm => absurd
                            (Or.inr (Or.inr (Or.inr (Or.inl hnh)))) hnm
                    · constructor
                      · exact iff_of_true ⟨.femmesDup, by simp [hnf]⟩
                          (Or.inr (Or.inr (Or.inl hnf)))
                      · exact fun hnm => absurd
                          (Or.inr (Or.inr (Or.inl hnf))) hnm
            | jnum n =>
              refine settle _ .hommesNotList ?_ ?_
              · simp [validate_input, hfalsy, inCheck, hanyf, hanyh, hf, hh]
              · simp [MalformedPayload, MalformedFields, hf, hh]
            | jbool b =>
              refine settle _ .hommesNotList ?_ ?_
              · simp [validate_input, hfalsy, inCheck, hanyf, hanyh, hf, hh]
              · simp [MalformedPayload, MalformedFields, hf, hh]
            | jstr s =>
              refine settle _ .hommesNotList ?_ ?_
              · simp [validate_input, hfalsy, inCheck, hanyf, hanyh, hf, hh]
              · simp [MalformedPayload, MalformedFields, hf, hh]
            | jobj kvs2 =>
              refine settle _ .hommesNotList ?_ ?_
              · simp [validate_input, hfalsy, inCheck, hanyf, hanyh, hf, hh]
              · simp [MalformedPayload, MalformedFields, hf, hh]
            | jnull =>
              refine settle _ .hommesNotList ?_ ?_
              · simp [validate_input, hfalsy, inCheck, hanyf, hanyh, hf, hh]
              · simp [MalformedPayload, MalformedFields, hf, hh]
          | jnum n =>
            refine settle _ .femmesNotList ?_ ?_
            · simp [validate_input, hfalsy, inCheck, hanyf, hanyh, hf, hh]
            · simp [MalformedPayload, MalformedFields, hf, hh]
          | jbool b =>
            refine settle _ .femmesNotList ?_ ?_
            · simp [validate_input, hfalsy, inCheck, hanyf, hanyh, hf, hh]
            · simp [MalformedPayload, MalformedFields, hf, hh]
          | jstr s =>
            refine settle _ .femmesNotList ?_ ?_
            · simp [validate_input, hfalsy, inCheck, hanyf, hanyh, hf, hh]
            · simp [MalformedPayload, MalformedFields, hf, hh]
          | jobj kvs2 =>
            refine settle _ .femmesNotList ?_ ?_
            · simp [validate_input, hfalsy, inCheck, hanyf, hanyh, hf, hh]
            · simp [MalformedPayload, MalformedFields, hf, hh]
          | jnull =>
            refine settle _ .femmesNotList ?_ ?_
            · simp [validate_input, hfalsy, inCheck, hanyf, hanyh, hf, hh]
            · simp [MalformedPayload, MalformedFields, hf, hh]

/-- C3 (amended): for payloads that are absent or JSON objects, the
stateless `associate` returns a validation failure exactly when the
payload is malformed in the claim's sense, and otherwise succeeds with a
couples list and statistics.  The restriction to absent-or-object
payloads is forced by the counterexample (the payload `5` raises an
uncaught exception). -/
theorem associate_failure_iff (sf sm : List Int → List Int)
    (data : Option JValue)
    (hobj : data = none ∨ ∃ kvs, data = some (.jobj kvs)) :
    ((∃ e, associate sf sm data = .failure e) ↔ MalformedPayload data) ∧
    (¬MalformedPayload data →
      ∃ couples stats, associate sf sm data = .ok couples stats) := by
  obtain ⟨hiff, hok⟩ := validate_input_spec data hobj
  constructor
  · rw [← hiff]
    unfold associate
    cases validate_input data <;> simp
  · intro hnm
    obtain ⟨fs, hs, hv⟩ := hok hnm
    refine ⟨create_associations (sf fs) (sm hs),
      ⟨fs.length + hs.length,
       (create_associations (sf fs) (sm hs)).length,
       countType (create_associations (sf fs) (sm hs)) .HF,
       countType (create_associations (sf fs) (sm hs)) .FF,
       countType (create_associations (sf fs) (sm hs)) .HH,
       fs.length + hs.length
         - 2 * (create_associations (sf fs) (sm hs)).length⟩, ?_⟩
    unfold associate
    rw [hv]

theorem associate_failure_iff_witness :
    ((some (JValue.jobj [("femmes", JValue.jlist [JValue.jnum 1]),
        ("hommes", JValue.jlist [JValue.jnum 2])]) : Option JValue)
        = none ∨
      ∃ kvs, (some (JValue.jobj [("femmes", JValue.jlist [JValue.jnum 1]),
          ("hommes", JValue.jlist [JValue.jnum 2])]) : Option JValue)
        = some (.jobj kvs)) ∧
    (((∃ e, associate id id
        (some (JValue.jobj [("femmes", JValue.jlist [JValue.jnum 1]),
          ("hommes", JValue.jlist [JValue.jnum 2])])) = .failure e) ↔
      MalformedPayload (some
        (JValue.jobj [("femmes", JValue.jlist [JValue.jnum 1]),
          ("hommes", JValue.jlist [JValue.jnum 2])]))) ∧
     (¬MalformedPayload (some
          (JValue.jobj [("femmes", JValue.jlist [JValue.jnum 1]),
            ("hommes", JValue.jlist [JValue.jnum 2])])) →
       ∃ couples stats, associate id id
          (some (JValue.jobj [("femmes", JValue.jlist [JValue.jnum 1]),
            ("hommes", JValue.jlist [JValue.jnum 2])]))
         = .ok couples stats)) :=
  ⟨Or.inr ⟨_, rfl⟩, associate_failure_iff id id _ (Or.inr ⟨_, rfl⟩)⟩

/-- C3 counterexample: the JSON payload `5` is malformed (it has no
`femmes`/`hommes` fields) yet `associate` does not return a validation
failure: `'femmes' not in data` raises an uncaught `TypeError`. -/
theorem associate_crash_on_number :
    associate id id (some (.jnum 5)) = .crash ∧
    (¬∃ e, associate id id (some (.jnum 5)) = .failure e) ∧
    MalformedPayload (some (.jnum 5)) := by
  refine ⟨rfl, ?_, trivial⟩
  rintro ⟨e, he⟩
  simp [associate, validate_input, pyFalsy, inCheck] at he

/-! ### The soft-delete store (storage/memory_store.py)

Rows are kept in insertion order; `query.filter_by(...).first()` is
`List.find?`.  Identifiers are modelled as `Int` on both sides. -/

/-- A `Participant` row: identifier plus `is_archived`. -/
structure PRow where
  pid : Int
  archived : Bool
deriving DecidableEq

/-- A `Gift` row. -/
structure GRow where
  gid : Int
  archived : Bool
deriving DecidableEq

/-- An `Association` row: participant, gift, `is_archived`. -/
structure ARow where
  participant : Int
  gift : Int
  archived : Bool
deriving DecidableEq

/-- The database state. -/
structure Store where
  participants : List PRow
  gifts : List GRow
  associations : List ARow
deriving DecidableEq

/-- `Participant.query.filter_by(participant=p, is_archived=False).first()`. -/
def findActiveP (s : Store) (p : Int) : Option PRow :=
  s.participants.find? (fun r => r.pid == p && !r.archived)

/-- `Gift.query.filter_by(gift=g, is_archived=False).first()`. -/
def findActiveG (s : Store) (g : Int) : Option GRow :=
  s.gifts.find? (fun r => r.gid == g && !r.archived)

/-- `Association.query.filter_by(participant=p, is_archived=False).first()`. -/
def findActiveAByP (s : Store) (p : Int) : Option ARow :=
  s.associations.find? (fun a => a.participant == p && !a.archived)

/-- `Association.query.filter_by(gift=g, is_archived=False).first()`. -/
def findActiveAByG (s : Store) (g : Int) : Option ARow :=
  s.associations.find? (fun a => a.gift == g && !a.archived)

/-- `add_participant` (lines 13-30): refuse if an active row with the
identifier exists, else insert a fresh active row. -/
def add_participant (s : Store) (p : Int) : Bool × Store :=
  match findActiveP s p with
  | some _ => (false, s)
  | none => (true, { s with participants := s.participants ++ [⟨p, false⟩] })

/-- `add_gift` (lines 88-105). -/
def add_gift (s : Store) (g : Int) : Bool × Store :=
  match findActiveG s g with
  | some _ => (false, s)
  | none => (true, { s with gifts := s.gifts ++ [⟨g, false⟩] })

/-- `add_participants_bulk` (lines 32-51): apply `add_participant` in
order, partitioning into `added` and `ignored` lists. -/
def add_participants_bulk (s : Store) : List Int → (List Int × List Int) × Store
  | [] => (([], []), s)
  | p :: rest =>
    let r1 := add_participant s p
    let r2 := add_participants_bulk r1.2 rest
    if r1.1 then ((p :: r2.1.1, r2.1.2), r2.2)
    else ((r2.1.1, p :: r2.1.2), r2.2)

/-- `add_gifts_bulk` (lines 107-126). -/
def add_gifts_bulk (s : Store) : List Int → (List Int × List Int) × Store
  | [] => (([], []), s)
  | g :: rest =>
    let r1 := add_gift s g
    let r2 := add_gifts_bulk r1.2 rest
    if r1.1 then ((g :: r2.1.1, r2.1.2), r2.2)
    else ((r2.1.1, g :: r2.1.2), r2.2)

/-- Set `is_archived = True` on the first active row matching `q`
(the row object returned by `.first()`). -/
def archiveFirstA (q : ARow → Bool) : List ARow → List ARow
  | [] => []
  | a :: rest =>
    if q a && !a.archived then { a with archived := true } :: rest
    else a :: archiveFirstA q rest

/-- Archive the first active participant row with identifier `p`. -/
def archiveFirstP (p : Int) : List PRow → List PRow
  | [] => []
  | r :: rest =>
    if r.pid == p && !r.archived then { r with archived := true } :: rest
    else r :: archiveFirstP p rest

/-- Archive the first active gift row with identifier `g`. -/
def archiveFirstG (g : Int) : List GRow → List GRow
  | [] => []
  | r :: rest =>
    if r.gid == g && !r.archived then { r with archived := true } :: rest
    else r :: archiveFirstG g rest

/-- `remove_participant` (lines 53-76): archive the participant row and
its active association, if any. -/
def remove_participant (s : Store) (p : Int) : Bool × Store :=
  match findActiveP s p with
  | none => (false, s)
  | some _ =>
    (true, { s with
      participants := archiveFirstP p s.participants,
      associations := archiveFirstA (fun a => a.participant == p)
        s.associations })

/-- `remove_gift` (lines 128-151). -/
def remove_gift (s : Store) (g : Int) : Bool × Store :=
  match findActiveG s g with
  | none => (false, s)
  | some _ =>
    (true, { s with
      gifts := archiveFirstG g s.gifts,
      associations := archiveFirstA (fun a => a.gift == g)
        s.associations })

/-- Active (non-archived) participant identifiers, insertion order. -/
def ActivePids (s : Store) : List Int :=
  (s.participants.filter (fun r => !r.archived)).map PRow.pid

/-- Active gift identifiers. -/
def ActiveGids (s : Store) : List Int :=
  (s.gifts.filter (fun r => !r.archived)).map GRow.gid

/-- Active association rows. -/
def activeAssocs (s : Store) : List ARow :=
  s.associations.filter (fun a => !a.archived)

/-- Whether some active association references participant `p`. -/
def hasActiveAssocP (s : Store) (p : Int) : Bool :=
  s.associations.any (fun a => a.participant == p && !a.archived)

/-- Whether some active association references gift `g`. -/
def hasActiveAssocG (s : Store) (g : Int) : Bool :=
  s.associations.any (fun a => a.gift == g && !a.archived)

/-- `get_unassociated_participants` (lines 163-175): active participants
with no active association. -/
def get_unassociated_participants (s : Store) : List Int :=
  ((s.participants.filter (fun r => !r.archived)).filter
    (fun r => !hasActiveAssocP s r.pid)).map PRow.pid

/-- `get_unassociated_gifts` (lines 177-189). -/
def get_unassociated_gifts (s : Store) : List Int :=
  ((s.gifts.filter (fun r => !r.archived)).filter
    (fun r => !hasActiveAssocG s r.gid)).map GRow.gid

/-- `add_association` (lines 191-209): refuse when the *participant*
already has an active association (the gift is not checked), else append
a fresh active association row. -/
def add_association (s : Store) (p g : Int) : Bool × Store :=
  match findActiveAByP s p with
  | some _ => (false, s)
  | none =>
    (true, { s with associations := s.associations ++ [⟨p, g, false⟩] })

/-- `remove_association` (lines 211-227): archive the participant's
active association. -/
def remove_association (s : Store) (p : Int) : Bool × Store :=
  match findActiveAByP s p with
  | none => (false, s)
  | some _ =>
    (true, { s with
      associations := archiveFirstA (fun a => a.participant == p)
        s.associations })

/-- `reset` (lines 277-284): hard-delete everything. -/
def reset (_ : Store) : Store := ⟨[], [], []⟩

/-- `reset_associations` (lines 286-292): count the active associations,
hard-delete them (archived rows are kept), return the count. -/
def reset_associations (s : Store) : Nat × Store :=
  ((s.associations.filter (fun a => !a.archived)).length,
   { s with associations := s.associations.filter (fun a => a.archived) })

/-- One side of the `get_status` report. -/
structure SideStatus where
  total : Nat
  associated : Nat
  unassociated : Nat
  list_associated : List Int
  list_unassociated : List Int
deriving DecidableEq

/-- The `get_status` report (lines 239-275; the `details` dict is
represented by the association list itself). -/
structure Status where
  participants : SideStatus
  gifts : SideStatus
  assoc_total : Nat
deriving DecidableEq

/-- `get_status` (lines 239-275). -/
def get_status (s : Store) : Status :=
  let allP := (s.participants.filter (fun r => !r.archived)).map PRow.pid
  let allG := (s.gifts.filter (fun r => !r.archived)).map GRow.gid
  let allA := s.associations.filter (fun a => !a.archived)
  let assocP := allA.map ARow.participant
  let assocG := allA.map ARow.gift
  let unP := allP.filter (fun p => !assocP.contains p)
  let unG := allG.filter (fun g => !assocG.contains g)
  ⟨⟨allP.length, assocP.length, unP.length, assocP, unP⟩,
   ⟨allG.length, assocG.length, unG.length, assocG, unG⟩,
   allA.length⟩

/-! ### The store-backed service (services/association_service.py) -/

/-- The `H-F` loop of `create_random_associations` (lines 67-78):
`while hommes_list and femmes_list: homme = hommes_list.pop(); femme =
femmes_list.pop(); store.add_association(homme, femme); couples.append(
{"type": "H-F", ...})`.  Both working lists are stored reversed (head =
Python's last element); the store is threaded through the
`add_association` calls, whose return value the source ignores. -/
def hfLoopStore : List Int → List Int → Store →
    List Couple × List Int × List Int × Store
  | [], fs, st => ([], [], fs, st)
  | hs, [], st => ([], hs, [], st)
  | h :: hs, f :: fs, st =>
    let st1 := (add_association st h f).2
    let r := hfLoopStore hs fs st1
    (⟨.HF, h, f⟩ :: r.1, r.2.1, r.2.2.1, r.2.2.2)

/-- Result dictionary of `create_random_associations`. -/
structure ServiceResult where
  success : Bool
  couples : List Couple
  statistiques : Stats
deriving DecidableEq

/-- `AssociationService.create_random_associations` (lines 20-125):
pull the unpaired hommes (participants) and femmes (gifts), return the
all-zero result when both are empty, otherwise shuffle (modelled by the
function parameters `sm`/`sf`), pair `H-F` while persisting each cross
pairing, then pair the leftovers `F-F` / `H-H` without persisting. -/
def create_random_associations (sm sf : List Int → List Int) (s : Store) :
    ServiceResult × Store :=
  let hommes := get_unassociated_participants s
  let femmes := get_unassociated_gifts s
  if hommes.isEmpty && femmes.isEmpty then
    (⟨true, [], ⟨0, 0, 0, 0, 0, 0⟩⟩, s)
  else
    let r1 := hfLoopStore (sm hommes).reverse (sf femmes).reverse s
    let r2 := ffLoop r1.2.2.1
    let r3 := hhLoop r1.2.1
    let couples := r1.1 ++ r2.1 ++ r3.1
    let total := hommes.length + femmes.length
    (⟨true, couples,
      ⟨total, couples.length, countType couples .HF, countType couples .FF,
        countType couples .HH, r2.2.length + r3.2.length⟩⟩,
     r1.2.2.2)

/-! ### Basic store lemmas -/

theorem findActiveP_none_iff (s : Store) (p : Int) :
    findActiveP s p = none ↔ p ∉ ActivePids s := by
  simp only [findActiveP, List.find?_eq_none, ActivePids, List.mem_map,
    List.mem_filter, Bool.and_eq_true, beq_iff_eq, Bool.not_eq_true',
    not_exists]
  constructor
  · rintro h r ⟨⟨hr, harch⟩, hpid⟩
    have := h r hr
    simp [hpid, harch] at this
  · intro h r hr
    by_cases harch : r.archived
    · simp [harch]
    · by_cases hpid : r.pid = p
      · exact absurd ⟨⟨hr, by simpa using harch⟩, hpid⟩ (h r)
      · simp [hpid]

theorem findActiveG_none_iff (s : Store) (g : Int) :
    findActiveG s g = none ↔ g ∉ ActiveGids s := by
  simp only [findActiveG, List.find?_eq_none, ActiveGids, List.mem_map,
    List.mem_filter, Bool.and_eq_true, beq_iff_eq, Bool.not_eq_true',
    not_exists]
  constructor
  · rintro h r ⟨⟨hr, harch⟩, hgid⟩
    have := h r hr
    simp [hgid, harch] at this
  · intro h r hr
    by_cases harch : r.archived
    · simp [harch]
    · by_cases hgid : r.gid = g
      · exact absurd ⟨⟨hr, by simpa using harch⟩, hgid⟩ (h r)
      · simp [hgid]

theorem findActiveAByP_none_iff (s : Store) (p : Int) :
    findActiveAByP s p = none ↔ hasActiveAssocP s p = false := by
  simp only [findActiveAByP, List.find?_eq_none, hasActiveAssocP,
    List.any_eq_false]

theorem hasActiveAssocP_iff (s : Store) (p : Int) :
    hasActiveAssocP s p = true ↔ ∃ a ∈ activeAssocs s, a.participant = p := by
  simp only [hasActiveAssocP, activeAssocs, List.any_eq_true,
    List.mem_filter, Bool.and_eq_true, beq_iff_eq, Bool.not_eq_true']
  constructor
  · rintro ⟨a, ha, hp, harch⟩
    exact ⟨a, ⟨ha, harch⟩, hp⟩
  · rintro ⟨a, ⟨ha, harch⟩, hp⟩
    exact ⟨a, ha, hp, harch⟩

theorem hasActiveAssocG_iff (s : Store) (g : Int) :
    hasActiveAssocG s g = true ↔ ∃ a ∈ activeAssocs s, a.gift = g := by
  simp only [hasActiveAssocG, activeAssocs, List.any_eq_true,
    List.mem_filter, Bool.and_eq_true, beq_iff_eq, Bool.not_eq_true']
  constructor
  · rintro ⟨a, ha, hp, harch⟩
    exact ⟨a, ⟨ha, harch⟩, hp⟩
  · rintro ⟨a, ⟨ha, harch⟩, hp⟩
    exact ⟨a, ha, hp, harch⟩

/-! ### C6: `add` and double-`add` -/

theorem filter_pid_length (l : List PRow) (x : Int) :
    (l.filter (fun r => r.pid == x && !r.archived)).length
      = ((l.filter (fun r => !r.archived)).map PRow.pid).count x := by
  induction l with
  | nil => rfl
  | cons r rest ih =>
    by_cases harch : r.archived
    · simp [harch, ih]
    · by_cases hpid : r.pid = x
      · simp [harch, hpid, ih, List.count_cons]
      · simp [harch, hpid, ih, List.count_cons]

theorem filter_gid_length (l : List GRow) (x : Int) :
    (l.filter (fun r => r.gid == x && !r.archived)).length
      = ((l.filter (fun r => !r.archived)).map GRow.gid).count x := by
  induction l with
  | nil => rfl
  | cons r rest ih =>
    by_cases harch : r.archived
    · simp [harch, ih]
    · by_cases hpid : r.gid = x
      · simp [harch, hpid, ih, List.count_cons]
      · simp [harch, hpid, ih, List.count_cons]

theorem add_participant_not_active (s : Store) (x : Int)
    (hx : x ∉ ActivePids s) :
    add_participant s x =
      (true, { s with participants := s.participants ++ [⟨x, false⟩] }) := by
  rw [add_participant, (findActiveP_none_iff s x).mpr hx]

theorem add_participant_active (s : Store) (x : Int)
    (hx : x ∈ ActivePids s) : add_participant s x = (false, s) := by
  rw [add_participant]
  cases hfind : findActiveP s x with
  | none => exact absurd ((findActiveP_none_iff s x).mp hfind) (by simp [hx])
  | some r => rfl

theorem add_gift_not_active (s : Store) (x : Int)
    (hx : x ∉ ActiveGids s) :
    add_gift s x = (true, { s with gifts := s.gifts ++ [⟨x, false⟩] }) := by
  rw [add_gift, (findActiveG_none_iff s x).mpr hx]

theorem add_gift_active (s : Store) (x : Int)
    (hx : x ∈ ActiveGids s) : add_gift s x = (false, s) := by
  rw [add_gift]
  cases hfind : findActiveG s x with
  | none => exact absurd ((findActiveG_none_iff s x).mp hfind) (by simp [hx])
  | some r => rfl

theorem ActivePids_append_fresh (s : Store) (x : Int) :
    ActivePids { s with participants := s.participants ++ [⟨x, false⟩] }
      = ActivePids s ++ [x] := by
  simp [ActivePids, List.filter_append]

theorem ActiveGids_append_fresh (s : Store) (x : Int) :
    ActiveGids { s with gifts := s.gifts ++ [⟨x, false⟩] }
      = ActiveGids s ++ [x] := by
  simp [ActiveGids, List.filter_append]

/-- C6: `add` inserts a fresh active entity and returns `true` exactly
when no active entity with that identifier exists, otherwise returns
`false` and leaves the store unchanged; a second `add` of the same
identifier returns `false` and exactly one active row with that
identifier remains.  Both `add_participant` and `add_gift`. -/
theorem add_entity_spec (s : Store) (x : Int)
    (hP : (ActivePids s).Nodup) (hG : (ActiveGids s).Nodup) :
    (x ∉ ActivePids s →
      add_participant s x =
        (true, { s with participants := s.participants ++ [⟨x, false⟩] })) ∧
    (x ∈ ActivePids s → add_participant s x = (false, s)) ∧
    ((add_participant (add_participant s x).2 x).1 = false ∧
      ((add_participant (add_participant s x).2 x).2.participants.filter
        (fun r => r.pid == x && !r.archived)).length = 1) ∧
    (x ∉ ActiveGids s →
      add_gift s x =
        (true, { s with gifts := s.gifts ++ [⟨x, false⟩] })) ∧
    (x ∈ ActiveGids s → add_gift s x = (false, s)) ∧
    ((add_gift (add_gift s x).2 x).1 = false ∧
      ((add_gift (add_gift s x).2 x).2.gifts.filter
        (fun r => r.gid == x && !r.archived)).length = 1) := by
  refine ⟨add_participant_not_active s x, add_participant_active s x, ?_,
    add_gift_not_active s x, add_gift_active s x, ?_⟩
  · by_cases hx : x ∈ ActivePids s
    · rw [add_participant_active s x hx, add_participant_active s x hx]
      refine ⟨rfl, ?_⟩
      rw [filter_pid_length]
      exact List.count_eq_one_of_mem hP hx
    · rw [add_participant_not_active s x hx]
      have hx2 : x ∈ ActivePids
          { s with participants := s.participants ++ [⟨x, false⟩] } := by
        rw [ActivePids_append_fresh]
        simp
      rw [add_participant_active _ x hx2]
      refine ⟨rfl, ?_⟩
      have h0 : (s.participants.filter
          (fun r => r.pid == x && !r.archived)).length = 0 := by
        rw [filter_pid_length]
        exact List.count_eq_zero.mpr hx
      simp [List.filter_append, h0]
  · by_cases hx : x ∈ ActiveGids s
    · rw [add_gift_active s x hx, add_gift_active s x hx]
      refine ⟨rfl, ?_⟩
      rw [filter_gid_length]
      exact List.count_eq_one_of_mem hG hx
    · rw [add_gift_not_active s x hx]
      have hx2 : x ∈ ActiveGids
          { s with gifts := s.gifts ++ [⟨x, false⟩] } := by
        rw [ActiveGids_append_fresh]
        simp
      rw [add_gift_active _ x hx2]
      refine ⟨rfl, ?_⟩
      have h0 : (s.gifts.filter
          (fun r => r.gid == x && !r.archived)).length = 0 := by
        rw [filter_gid_length]
        exact List.count_eq_zero.mpr hx
      simp [List.filter_append, h0]

theorem add_entity_spec_witness :
    ((1 : Int) ∉ ActivePids ⟨[], [], []⟩ →
      add_participant ⟨[], [], []⟩ 1 =
        (true, { Store.mk [] [] [] with
          participants := List.nil ++ [⟨1, false⟩] })) ∧
    ((1 : Int) ∈ ActivePids ⟨[], [], []⟩ →
      add_participant ⟨[], [], []⟩ 1 = (false, ⟨[], [], []⟩)) ∧
    ((add_participant (add_participant ⟨[], [], []⟩ 1).2 1).1 = false ∧
      ((add_participant (add_participant ⟨[], [], []⟩ 1).2 1).2.participants.filter
        (fun r => r.pid == 1 && !r.archived)).length = 1) ∧
    ((1 : Int) ∉ ActiveGids ⟨[], [], []⟩ →
      add_gift ⟨[], [], []⟩ 1 =
        (true, { Store.mk [] [] [] with gifts := List.nil ++ [⟨1, false⟩] })) ∧
    ((1 : Int) ∈ ActiveGids ⟨[], [], []⟩ →
      add_gift ⟨[], [], []⟩ 1 = (false, ⟨[], [], []⟩)) ∧
    ((add_gift (add_gift ⟨[], [], []⟩ 1).2 1).1 = false ∧
      ((add_gift (add_gift ⟨[], [], []⟩ 1).2 1).2.gifts.filter
        (fun r => r.gid == 1 && !r.archived)).length = 1) :=
  add_entity_spec ⟨[], [], []⟩ 1 (by decide) (by decide)

/-! ### C7: bulk add -/

/-- Claim-side description of `addBulk`: apply the single `add` to each
element in input order, putting it in `added` when `add` returned true
and in `ignored` otherwise. -/
inductive BulkAddRel (step : Store → Int → Bool × Store) :
    Store → List Int → List Int → List Int → Store → Prop where
  | nil (s : Store) : BulkAddRel step s [] [] [] s
  | hit (s : Store) (x : Int) (xs a i : List Int) (s2 : Store) :
      (step s x).1 = true → BulkAddRel step (step s x).2 xs a i s2 →
      BulkAddRel step s (x :: xs) (x :: a) i s2
  | miss (s : Store) (x : Int) (xs a i : List Int) (s2 : Store) :
      (step s x).1 = false → BulkAddRel step (step s x).2 xs a i s2 →
      BulkAddRel step s (x :: xs) a (x :: i) s2

theorem add_participants_bulk_rel (s : Store) (l : List Int) :
    BulkAddRel add_participant s l (add_participants_bulk s l).1.1
      (add_participants_bulk s l).1.2 (add_participants_bulk s l).2 ∧
    (add_participants_bulk s l).1.1.Sublist l ∧
    (add_participants_bulk s l).1.2.Sublist l ∧
    ((add_participants_bulk s l).1.1
      ++ (add_participants_bulk s l).1.2).Perm l := by
  induction l generalizing s with
  | nil => exact ⟨BulkAddRel.nil s, List.Sublist.refl _, List.Sublist.refl _,
      List.Perm.refl _⟩
  | cons p rest ih =>
    obtain ⟨hrel, hs1, hs2, hperm⟩ := ih (add_participant s p).2
    cases hb : (add_participant s p).1 with
    | true =>
      have he : add_participants_bulk s (p :: rest) =
          ((p :: (add_participants_bulk (add_participant s p).2 rest).1.1,
            (add_participants_bulk (add_participant s p).2 rest).1.2),
           (add_participants_bulk (add_participant s p).2 rest).2) := by
        simp [add_participants_bulk, hb]
      rw [he]
      exact ⟨BulkAddRel.hit s p rest _ _ _ hb hrel, hs1.cons₂ p, hs2.cons p,
        List.Perm.cons p hperm⟩
    | false =>
      have he : add_participants_bulk s (p :: rest) =
          (((add_participants_bulk (add_participant s p).2 rest).1.1,
            p :: (add_participants_bulk (add_participant s p).2 rest).1.2),
           (add_participants_bulk (add_participant s p).2 rest).2) := by
        simp [add_participants_bulk, hb]
      rw [he]
      refine ⟨BulkAddRel.miss s p rest _ _ _ hb hrel, hs1.cons p,
        hs2.cons₂ p, ?_⟩
      exact List.perm_middle.trans (List.Perm.cons p hperm)

theorem add_gifts_bulk_rel (s : Store) (l : List Int) :
    BulkAddRel add_gift s l (add_gifts_bulk s l).1.1
      (add_gifts_bulk s l).1.2 (add_gifts_bulk s l).2 ∧
    (add_gifts_bulk s l).1.1.Sublist l ∧
    (add_gifts_bulk s l).1.2.Sublist l ∧
    ((add_gifts_bulk s l).1.1 ++ (add_gifts_bulk s l).1.2).Perm l := by
  induction l generalizing s with
  | nil => exact ⟨BulkAddRel.nil s, List.Sublist.refl _, List.Sublist.refl _,
      List.Perm.refl _⟩
  | cons p rest ih =>
    obtain ⟨hrel, hs1, hs2, hperm⟩ := ih (add_gift s p).2
    cases hb : (add_gift s p).1 with
    | true =>
      have he : add_gifts_bulk s (p :: rest) =
          ((p :: (add_gifts_bulk (add_gift s p).2 rest).1.1,
            (add_gifts_bulk (add_gift s p).2 rest).1.2),
           (add_gifts_bulk (add_gift s p).2 rest).2) := by
        simp [add_gifts_bulk, hb]
      rw [he]
      exact ⟨BulkAddRel.hit s p rest _ _ _ hb hrel, hs1.cons₂ p, hs2.cons p,
        List.Perm.cons p hperm⟩
    | false =>
      have he : add_gifts_bulk s (p :: rest) =
          (((add_gifts_bulk (add_gift s p).2 rest).1.1,
            p :: (add_gifts_bulk (add_gift s p).2 rest).1.2),
           (add_gifts_bulk (add_gift s p).2 rest).2) := by
        simp [add_gifts_bulk, hb]
      rw [he]
      refine ⟨BulkAddRel.miss s p rest _ _ _ hb hrel, hs1.cons p,
        hs2.cons₂ p, ?_⟩
      exact List.perm_middle.trans (List.Perm.cons p hperm)

/-- C7: `addBulk` applies `add` elementwise in input order, the `added`
and `ignored` lists partition the input according to the result of each
`add`, and both preserve the input's relative order.  Both
`add_participants_bulk` and `add_gifts_bulk`. -/
theorem add_bulk_spec (s : Store) (l : List Int) :
    (BulkAddRel add_participant s l (add_participants_bulk s l).1.1
        (add_participants_bulk s l).1.2 (add_participants_bulk s l).2 ∧
      (add_participants_bulk s l).1.1.Sublist l ∧
      (add_participants_bulk s l).1.2.Sublist l ∧
      ((add_participants_bulk s l).1.1
        ++ (add_participants_bulk s l).1.2).Perm l) ∧
    (BulkAddRel add_gift s l (add_gifts_bulk s l).1.1
        (add_gifts_bulk s l).1.2 (add_gifts_bulk s l).2 ∧
      (add_gifts_bulk s l).1.1.Sublist l ∧
      (add_gifts_bulk s l).1.2.Sublist l ∧
      ((add_gifts_bulk s l).1.1 ++ (add_gifts_bulk s l).1.2).Perm l) :=
  ⟨add_participants_bulk_rel s l, add_gifts_bulk_rel s l⟩

/-! ### C9: `reset_associations` -/

/-- C9: `reset_associations` deletes exactly the active pairings and
returns their count; both entity tables are untouched, the status shows
0 active pairings, and every active entity is unpaired afterwards. -/
theorem reset_associations_spec (s : Store) :
    (reset_associations s).1 = (activeAssocs s).length ∧
    (reset_associations s).2.participants = s.participants ∧
    (reset_associations s).2.gifts = s.gifts ∧
    activeAssocs (reset_associations s).2 = [] ∧
    (get_status (reset_associations s).2).assoc_total = 0 ∧
    get_unassociated_participants (reset_associations s).2
      = ActivePids (reset_associations s).2 ∧
    get_unassociated_gifts (reset_associations s).2
      = ActiveGids (reset_associations s).2 ∧
    ActivePids (reset_associations s).2 = ActivePids s ∧
    ActiveGids (reset_associations s).2 = ActiveGids s := by
  have hact : activeAssocs (reset_associations s).2 = [] := by
    simp only [activeAssocs, reset_associations, List.filter_filter]
    apply List.filter_eq_nil_iff.mpr
    intro a ha
    cases h : a.archived <;> simp [h]
  have hasP : ∀ p, hasActiveAssocP (reset_associations s).2 p = false := by
    intro p
    apply List.any_eq_false.mpr
    intro a ha
    have ha2 : a ∈ (reset_associations s).2.associations := ha
    simp only [reset_associations, List.mem_filter] at ha2
    simp [ha2.2]
  have hasG : ∀ g, hasActiveAssocG (reset_associations s).2 g = false := by
    intro g
    apply List.any_eq_false.mpr
    intro a ha
    have ha2 : a ∈ (reset_associations s).2.associations := ha
    simp only [reset_associations, List.mem_filter] at ha2
    simp [ha2.2]
  refine ⟨rfl, rfl, rfl, hact, ?_, ?_, ?_, rfl, rfl⟩
  · simp only [get_status]
    have : (reset_associations s).2.associations.filter
        (fun a => !a.archived) = [] := hact
    simp [this]
  · simp only [get_unassociated_participants, ActivePids]
    rw [List.filter_eq_self.mpr (fun r _ => by simp [hasP r.pid])]
  · simp only [get_unassociated_gifts, ActiveGids]
    rw [List.filter_eq_self.mpr (fun r _ => by simp [hasG r.gid])]

/-! ### C10: empty unpaired sets vs empty input lists -/

/-- C10: with both unpaired sets empty the store-backed operation
succeeds with an empty couple list and all-zero statistics, while the
stateless `associate` on two empty lists returns the `bothEmpty`
validation failure. -/
theorem empty_input_divergence :
    (∀ (sm sf : List Int → List Int) (s : Store),
      get_unassociated_participants s = [] →
      get_unassociated_gifts s = [] →
      create_random_associations sm sf s =
        (⟨true, [], ⟨0, 0, 0, 0, 0, 0⟩⟩, s)) ∧
    (∀ sf sm : List Int → List Int,
      associate sf sm (some (.jobj
        [("femmes", .jlist []), ("hommes", .jlist [])]))
        = .failure .bothEmpty) := by
  constructor
  · intro sm sf s h1 h2
    simp [create_random_associations, h1, h2]
  · intro sf sm
    rfl

theorem empty_input_divergence_witness :
    create_random_associations id id ⟨[], [], []⟩ =
      (⟨true, [], ⟨0, 0, 0, 0, 0, 0⟩⟩, ⟨[], [], []⟩) ∧
    associate id id (some (.jobj
      [("femmes", .jlist []), ("hommes", .jlist [])]))
      = .failure .bothEmpty :=
  ⟨empty_input_divergence.1 id id ⟨[], [], []⟩ rfl rfl,
   empty_input_divergence.2 id id⟩

/-! ### Behaviour of the store-threaded `H-F` loop -/

theorem add_association_participants (st : Store) (p g : Int) :
    (add_association st p g).2.participants = st.participants := by
  unfold add_association
  cases findActiveAByP st p <;> rfl

theorem add_association_gifts (st : Store) (p g : Int) :
    (add_association st p g).2.gifts = st.gifts := by
  unfold add_association
  cases findActiveAByP st p <;> rfl

theorem add_association_fresh (st : Store) (p g : Int)
    (h : hasActiveAssocP st p = false) :
    add_association st p g =
      (true, { st with associations := st.associations ++ [⟨p, g, false⟩] }) := by
  rw [add_association, (findActiveAByP_none_iff st p).mpr h]

theorem hasActiveAssocP_append_fresh (st : Store) (h f p : Int) :
    hasActiveAssocP
        { st with associations := st.associations ++ [⟨h, f, false⟩] } p
      = (hasActiveAssocP st p || (h == p)) := by
  simp [hasActiveAssocP, List.any_append]

/-- The couples and leftover lists of the store-threaded loop do not
depend on the store. -/
theorem hfLoopStore_shape : ∀ (hs fs : List Int) (st : Store),
    (hfLoopStore hs fs st).1 =
      List.zipWith (fun h f => Couple.mk .HF h f) hs fs ∧
    (hfLoopStore hs fs st).2.1 = hs.drop fs.length ∧
    (hfLoopStore hs fs st).2.2.1 = fs.drop hs.length
  | [], fs, st => by cases fs <;> simp [hfLoopStore]
  | h :: hs, [], st => by simp [hfLoopStore]
  | h :: hs, f :: fs, st => by
    have ih := hfLoopStore_shape hs fs (add_association st h f).2
    simp [hfLoopStore, ih.1, ih.2.1, ih.2.2]

theorem hfLoopStore_entities : ∀ (hs fs : List Int) (st : Store),
    (hfLoopStore hs fs st).2.2.2.participants = st.participants ∧
    (hfLoopStore hs fs st).2.2.2.gifts = st.gifts
  | [], fs, st => by cases fs <;> simp [hfLoopStore]
  | h :: hs, [], st => by simp [hfLoopStore]
  | h :: hs, f :: fs, st => by
    have ih := hfLoopStore_entities hs fs (add_association st h f).2
    simp only [hfLoopStore]
    rw [ih.1, ih.2, add_association_participants, add_association_gifts]
    exact ⟨rfl, rfl⟩

/-- When the hommes are distinct and initially unassociated, every
`add_association` call in the loop succeeds and the final association
table is the old one extended by one fresh row per cross couple. -/
theorem hfLoopStore_assocs : ∀ (hs fs : List Int) (st : Store),
    hs.Nodup → (∀ h ∈ hs, hasActiveAssocP st h = false) →
    (hfLoopStore hs fs st).2.2.2.associations =
      st.associations ++ List.zipWith (fun h f => ARow.mk h f false) hs fs
  | [], fs, st => by cases fs <;> simp [hfLoopStore]
  | h :: hs, [], st => by simp [hfLoopStore]
  | h :: hs, f :: fs, st => by
    intro hnd hfresh
    have hh : hasActiveAssocP st h = false :=
      hfresh h (List.mem_cons_self _ _)
    have hstep := add_association_fresh st h f hh
    have hfresh2 : ∀ h' ∈ hs,
        hasActiveAssocP (add_association st h f).2 h' = false := by
      intro h' hmem
      rw [hstep, hasActiveAssocP_append_fresh]
      have hne : h ≠ h' := by
        rintro rfl
        exact (List.nodup_cons.mp hnd).1 hmem
      simp [hfresh h' (List.mem_cons_of_mem _ hmem), hne]
    have ih := hfLoopStore_assocs hs fs (add_association st h f).2
      (List.nodup_cons.mp hnd).2 hfresh2
    simp only [hfLoopStore]
    rw [ih, hstep]
    simp

theorem get_unassociated_participants_nodup (s : Store)
    (hP : (ActivePids s).Nodup) :
    (get_unassociated_participants s).Nodup := by
  have hsub : ((s.participants.filter (fun r => !r.archived)).filter
      (fun r => !hasActiveAssocP s r.pid)).Sublist
      (s.participants.filter (fun r => !r.archived)) :=
    List.filter_sublist _
  exact (hsub.map PRow.pid).nodup hP

theorem get_unassociated_gifts_nodup (s : Store)
    (hG : (ActiveGids s).Nodup) :
    (get_unassociated_gifts s).Nodup := by
  have hsub : ((s.gifts.filter (fun r => !r.archived)).filter
      (fun r => !hasActiveAssocG s r.gid)).Sublist
      (s.gifts.filter (fun r => !r.archived)) :=
    List.filter_sublist _
  exact (hsub.map GRow.gid).nodup hG

theorem mem_unassocP_hasP (s : Store) (h : Int)
    (hm : h ∈ get_unassociated_participants s) :
    hasActiveAssocP s h = false := by
  simp only [get_unassociated_participants, List.mem_map,
    List.mem_filter] at hm
  obtain ⟨r, ⟨_, hpred⟩, rfl⟩ := hm
  simpa using hpred

theorem mem_unassocG_hasG (s : Store) (g : Int)
    (hm : g ∈ get_unassociated_gifts s) :
    hasActiveAssocG s g = false := by
  simp only [get_unassociated_gifts, List.mem_map,
    List.mem_filter] at hm
  obtain ⟨r, ⟨_, hpred⟩, rfl⟩ := hm
  simpa using hpred

theorem zipWith_mkHF_types (hs fs : List Int) :
    ∀ c ∈ List.zipWith (fun h f => Couple.mk .HF h f) hs fs,
      c.ctype = .HF := by
  induction hs generalizing fs with
  | nil => simp
  | cons h hs ih =>
    cases fs with
    | nil => simp
    | cons f fs =>
      simp only [List.zipWith_cons_cons, List.mem_cons]
      rintro c (rfl | hc)
      · rfl
      · exact ih fs c hc

theorem map_toRow_zipWith (hs fs : List Int) :
    (List.zipWith (fun h f => Couple.mk .HF h f) hs fs).map
        (fun c => ARow.mk c.personne1 c.personne2 false)
      = List.zipWith (fun h f => ARow.mk h f false) hs fs := by
  induction hs generalizing fs with
  | nil => simp
  | cons h hs ih =>
    cases fs with
    | nil => simp
    | cons f fs => simp [ih]

/-- C8: `create_random_associations` persists exactly its `H-F` couples
(one fresh association row per cross couple, appended in order); `F-F`
and `H-H` couples cause no store mutation, and pre-existing rows are
untouched.  The hypotheses say that the shuffles are permutations and
that active participant identifiers are duplicate-free (the store
invariant). -/
theorem create_random_associations_persists
    (sm sf : List Int → List Int) (s : Store)
    (hm : (sm (get_unassociated_participants s)).Perm
      (get_unassociated_participants s))
    (hP : (ActivePids s).Nodup) :
    (create_random_associations sm sf s).2.participants = s.participants ∧
    (create_random_associations sm sf s).2.gifts = s.gifts ∧
    (create_random_associations sm sf s).2.associations =
      s.associations ++
        ((create_random_associations sm sf s).1.couples.filter
          (fun c => c.ctype == CoupleType.HF)).map
            (fun c => ARow.mk c.personne1 c.personne2 false) := by
  by_cases hempty : (get_unassociated_participants s).isEmpty &&
      (get_unassociated_gifts s).isEmpty
  · simp [create_random_associations, hempty]
  · have hstore : (create_random_associations sm sf s).2 =
        (hfLoopStore (sm (get_unassociated_participants s)).reverse
          (sf (get_unassociated_gifts s)).reverse s).2.2.2 := by
      rw [create_random_associations]
      simp only [hempty, Bool.false_eq_true, if_false]
    have hcouples : (create_random_associations sm sf s).1.couples =
        (hfLoopStore (sm (get_unassociated_participants s)).reverse
          (sf (get_unassociated_gifts s)).reverse s).1
        ++ (ffLoop (hfLoopStore (sm (get_unassociated_participants s)).reverse
          (sf (get_unassociated_gifts s)).reverse s).2.2.1).1
        ++ (hhLoop (hfLoopStore (sm (get_unassociated_participants s)).reverse
          (sf (get_unassociated_gifts s)).reverse s).2.1).1 := by
      rw [create_random_associations]
      simp only [hempty, Bool.false_eq_true, if_false]
    set hsl := (sm (get_unassociated_participants s)).reverse with hhsl
    set fsl := (sf (get_unassociated_gifts s)).reverse with hfsl
    have hnd : hsl.Nodup := by
      rw [hhsl, List.nodup_reverse]
      exact hm.symm.nodup (get_unassociated_participants_nodup s hP)
    have hfresh : ∀ h ∈ hsl, hasActiveAssocP s h = false := by
      intro h hmem
      apply mem_unassocP_hasP
      rw [hhsl, List.mem_reverse] at hmem
      exact hm.mem_iff.mp hmem
    have hassocs := hfLoopStore_assocs hsl fsl s hnd hfresh
    have hents := hfLoopStore_entities hsl fsl s
    have hshape := hfLoopStore_shape hsl fsl s
    rw [hstore, hcouples]
    refine ⟨hents.1, hents.2, ?_⟩
    rw [hassocs]
    congr 1
    rw [List.filter_append, List.filter_append]
    have hffnil : ((ffLoop (hfLoopStore hsl fsl s).2.2.1).1.filter
        (fun c => c.ctype == CoupleType.HF)) = [] := by
      apply List.filter_eq_nil_iff.mpr
      intro c hc
      rw [ffLoop_type _ c hc]
      simp
    have hhhnil : ((hhLoop (hfLoopStore hsl fsl s).2.1).1.filter
        (fun c => c.ctype == CoupleType.HF)) = [] := by
      apply List.filter_eq_nil_iff.mpr
      intro c hc
      rw [hhLoop_type _ c hc]
      simp
    have hzf : ((hfLoopStore hsl fsl s).1.filter
        (fun c => c.ctype == CoupleType.HF)) = (hfLoopStore hsl fsl s).1 := by
      apply List.filter_eq_self.mpr
      intro c hc
      rw [hshape.1] at hc
      rw [zipWith_mkHF_types hsl fsl c hc]
      simp
    rw [hffnil, hhhnil, hzf, List.append_nil, List.append_nil, hshape.1,
      map_toRow_zipWith]

theorem create_random_associations_persists_witness :
    ((id (get_unassociated_participants ⟨[⟨1, false⟩], [⟨7, false⟩], []⟩)).Perm
      (get_unassociated_participants ⟨[⟨1, false⟩], [⟨7, false⟩], []⟩)) ∧
    ((create_random_associations id id
        ⟨[⟨1, false⟩], [⟨7, false⟩], []⟩).2.participants = [⟨1, false⟩] ∧
      (create_random_associations id id
        ⟨[⟨1, false⟩], [⟨7, false⟩], []⟩).2.gifts = [⟨7, false⟩] ∧
      (create_random_associations id id
        ⟨[⟨1, false⟩], [⟨7, false⟩], []⟩).2.associations =
        [] ++ ((create_random_associations id id
            ⟨[⟨1, false⟩], [⟨7, false⟩], []⟩).1.couples.filter
          (fun c => c.ctype == CoupleType.HF)).map
            (fun c => ARow.mk c.personne1 c.personne2 false)) :=
  ⟨List.Perm.refl _,
   create_random_associations_persists id id ⟨[⟨1, false⟩], [⟨7, false⟩], []⟩
     (List.Perm.refl _) (by decide)⟩

/-! ### Store invariant and reachability -/

theorem archiveFirstP_active_sublist (p : Int) : ∀ l : List PRow,
    ((archiveFirstP p l).filter (fun r => !r.archived)).Sublist
      (l.filter (fun r => !r.archived))
  | [] => by simp [archiveFirstP]
  | r :: rest => by
    simp only [archiveFirstP]
    by_cases h : (r.pid == p && !r.archived) = true
    · have harch : r.archived = false := by
        simp only [Bool.and_eq_true, Bool.not_eq_true'] at h
        exact h.2
      rw [if_pos h]
      rw [List.filter_cons, List.filter_cons]
      rw [if_neg (by simp), if_pos (by simp [harch])]
      exact List.Sublist.cons r (List.Sublist.refl _)
    · rw [if_neg h, List.filter_cons, List.filter_cons]
      cases harch : r.archived with
      | true =>
        rw [if_neg (by simp [harch]), if_neg (by simp [harch])]
        exact archiveFirstP_active_sublist p rest
      | false =>
        rw [if_pos (by simp [harch]), if_pos (by simp [harch])]
        exact (archiveFirstP_active_sublist p rest).cons₂ r

theorem archiveFirstG_active_sublist (g : Int) : ∀ l : List GRow,
    ((archiveFirstG g l).filter (fun r => !r.archived)).Sublist
      (l.filter (fun r => !r.archived))
  | [] => by simp [archiveFirstG]
  | r :: rest => by
    simp only [archiveFirstG]
    by_cases h : (r.gid == g && !r.archived) = true
    · have harch : r.archived = false := by
        simp only [Bool.and_eq_true, Bool.not_eq_true'] at h
        exact h.2
      rw [if_pos h]
      rw [List.filter_cons, List.filter_cons]
      rw [if_neg (by simp), if_pos (by simp [harch])]
      exact List.Sublist.cons r (List.Sublist.refl _)
    · rw [if_neg h, List.filter_cons, List.filter_cons]
      cases harch : r.archived with
      | true =>
        rw [if_neg (by simp [harch]), if_neg (by simp [harch])]
        exact archiveFirstG_active_sublist g rest
      | false =>
        rw [if_pos (by simp [harch]), if_pos (by simp [harch])]
        exact (archiveFirstG_active_sublist g rest).cons₂ r

theorem archiveFirstA_active_sublist (q : ARow → Bool) : ∀ l : List ARow,
    ((archiveFirstA q l).filter (fun a => !a.archived)).Sublist
      (l.filter (fun a => !a.archived))
  | [] => by simp [archiveFirstA]
  | a :: rest => by
    simp only [archiveFirstA]
    by_cases h : (q a && !a.archived) = true
    · have harch : a.archived = false := by
        simp only [Bool.and_eq_true, Bool.not_eq_true'] at h
        exact h.2
      rw [if_pos h]
      rw [List.filter_cons, List.filter_cons]
      rw [if_neg (by simp), if_pos (by simp [harch])]
      exact List.Sublist.cons a (List.Sublist.refl _)
    · rw [if_neg h, List.filter_cons, List.filter_cons]
      cases harch : a.archived with
      | true =>
        rw [if_neg (by simp [harch]), if_neg (by simp [harch])]
        exact archiveFirstA_active_sublist q rest
      | false =>
        rw [if_pos (by simp [harch]), if_pos (by simp [harch])]
        exact (archiveFirstA_active_sublist q rest).cons₂ a

/-- The store invariant: active identifiers are unique on each side, and
each identifier is referenced by at most one active association (on
either side). -/
def StoreInv (s : Store) : Prop :=
  (ActivePids s).Nodup ∧ (ActiveGids s).Nodup ∧
  ((activeAssocs s).map ARow.participant).Nodup ∧
  ((activeAssocs s).map ARow.gift).Nodup

/-- The store states reachable through the HTTP layer's operations
(routes/participants.py, routes/gifts.py, routes/associations.py,
routes/status.py): single and bulk adds, archival, the pairing engine
(whose shuffles must produce permutations), association removal and the
two resets.  `add_association` itself is only invoked by the pairing
engine. -/
inductive Reachable : Store → Prop where
  | empty : Reachable ⟨[], [], []⟩
  | addP (s : Store) (p : Int) : Reachable s →
      Reachable (add_participant s p).2
  | addPBulk (s : Store) (l : List Int) : Reachable s →
      Reachable (add_participants_bulk s l).2
  | removeP (s : Store) (p : Int) : Reachable s →
      Reachable (remove_participant s p).2
  | addG (s : Store) (g : Int) : Reachable s →
      Reachable (add_gift s g).2
  | addGBulk (s : Store) (l : List Int) : Reachable s →
      Reachable (add_gifts_bulk s l).2
  | removeG (s : Store) (g : Int) : Reachable s →
      Reachable (remove_gift s g).2
  | pairing (s : Store) (sm sf : List Int → List Int) : Reachable s →
      (sm (get_unassociated_participants s)).Perm
        (get_unassociated_participants s) →
      (sf (get_unassociated_gifts s)).Perm (get_unassociated_gifts s) →
      Reachable (create_random_associations sm sf s).2
  | removeA (s : Store) (p : Int) : Reachable s →
      Reachable (remove_association s p).2
  | resetAll (s : Store) : Reachable s → Reachable (reset s)
  | resetAssoc (s : Store) : Reachable s →
      Reachable (reset_associations s).2

theorem StoreInv_addP (s : Store) (p : Int) (h : StoreInv s) :
    StoreInv (add_participant s p).2 := by
  obtain ⟨h1, h2, h3, h4⟩ := h
  by_cases hx : p ∈ ActivePids s
  · rw [add_participant_active s p hx]
    exact ⟨h1, h2, h3, h4⟩
  · rw [add_participant_not_active s p hx]
    refine ⟨?_, h2, h3, h4⟩
    rw [ActivePids_append_fresh]
    refine List.Nodup.append h1 (by simp) ?_
    intro a ha ha2
    simp only [List.mem_singleton] at ha2
    subst ha2
    exact hx ha

theorem StoreInv_addG (s : Store) (g : Int) (h : StoreInv s) :
    StoreInv (add_gift s g).2 := by
  obtain ⟨h1, h2, h3, h4⟩ := h
  by_cases hx : g ∈ ActiveGids s
  · rw [add_gift_active s g hx]
    exact ⟨h1, h2, h3, h4⟩
  · rw [add_gift_not_active s g hx]
    refine ⟨h1, ?_, h3, h4⟩
    rw [ActiveGids_append_fresh]
    refine List.Nodup.append h2 (by simp) ?_
    intro a ha ha2
    simp only [List.mem_singleton] at ha2
    subst ha2
    exact hx ha

theorem add_participants_bulk_store (s : Store) (p : Int) (rest : List Int) :
    (add_participants_bulk s (p :: rest)).2
      = (add_participants_bulk (add_participant s p).2 rest).2 := by
  simp only [add_participants_bulk]
  split <;> rfl

theorem add_gifts_bulk_store (s : Store) (g : Int) (rest : List Int) :
    (add_gifts_bulk s (g :: rest)).2
      = (add_gifts_bulk (add_gift s g).2 rest).2 := by
  simp only [add_gifts_bulk]
  split <;> rfl

theorem StoreInv_addPBulk (s : Store) (l : List Int) (h : StoreInv s) :
    StoreInv (add_participants_bulk s l).2 := by
  induction l generalizing s with
  | nil => exact h
  | cons p rest ih =>
    rw [add_participants_bulk_store]
    exact ih _ (StoreInv_addP s p h)

theorem StoreInv_addGBulk (s : Store) (l : List Int) (h : StoreInv s) :
    StoreInv (add_gifts_bulk s l).2 := by
  induction l generalizing s with
  | nil => exact h
  | cons g rest ih =>
    rw [add_gifts_bulk_store]
    exact ih _ (StoreInv_addG s g h)

theorem StoreInv_removeP (s : Store) (p : Int) (h : StoreInv s) :
    StoreInv (remove_participant s p).2 := by
  obtain ⟨h1, h2, h3, h4⟩ := h
  rw [remove_participant]
  cases findActiveP s p with
  | none => exact ⟨h1, h2, h3, h4⟩
  | some r =>
    refine ⟨((archiveFirstP_active_sublist p s.participants).map
      PRow.pid).nodup h1, h2, ?_, ?_⟩
    · exact ((archiveFirstA_active_sublist _ s.associations).map
        ARow.participant).nodup h3
    · exact ((archiveFirstA_active_sublist _ s.associations).map
        ARow.gift).nodup h4

theorem StoreInv_removeG (s : Store) (g : Int) (h : StoreInv s) :
    StoreInv (remove_gift s g).2 := by
  obtain ⟨h1, h2, h3, h4⟩ := h
  rw [remove_gift]
  cases findActiveG s g with
  | none => exact ⟨h1, h2, h3, h4⟩
  | some r =>
    refine ⟨h1, ((archiveFirstG_active_sublist g s.gifts).map
      GRow.gid).nodup h2, ?_, ?_⟩
    · exact ((archiveFirstA_active_sublist _ s.associations).map
        ARow.participant).nodup h3
    · exact ((archiveFirstA_active_sublist _ s.associations).map
        ARow.gift).nodup h4

theorem StoreInv_removeA (s : Store) (p : Int) (h : StoreInv s) :
    StoreInv (remove_association s p).2 := by
  obtain ⟨h1, h2, h3, h4⟩ := h
  rw [remove_association]
  cases findActiveAByP s p with
  | none => exact ⟨h1, h2, h3, h4⟩
  | some r =>
    refine ⟨h1, h2, ?_, ?_⟩
    · exact ((archiveFirstA_active_sublist _ s.associations).map
        ARow.participant).nodup h3
    · exact ((archiveFirstA_active_sublist _ s.associations).map
        ARow.gift).nodup h4

theorem activeAssocs_reset_assoc (s : Store) :
    activeAssocs (reset_associations s).2 = [] := by
  simp only [activeAssocs, reset_associations, List.filter_filter]
  apply List.filter_eq_nil_iff.mpr
  intro a ha
  cases h : a.archived <;> simp [h]

theorem StoreInv_resetAssoc (s : Store) (h : StoreInv s) :
    StoreInv (reset_associations s).2 := by
  obtain ⟨h1, h2, _, _⟩ := h
  refine ⟨h1, h2, ?_, ?_⟩ <;> rw [activeAssocs_reset_assoc] <;> simp

theorem zipWith_mkARow_mem (hs fs : List Int) :
    ∀ a ∈ List.zipWith (fun h f => ARow.mk h f false) hs fs,
      a.archived = false ∧ a.participant ∈ hs ∧ a.gift ∈ fs := by
  induction hs generalizing fs with
  | nil => simp
  | cons h hs ih =>
    cases fs with
    | nil => simp
    | cons f fs =>
      simp only [List.zipWith_cons_cons, List.mem_cons]
      rintro a (rfl | ha)
      · simp
      · have := ih fs a ha
        exact ⟨this.1, Or.inr this.2.1, Or.inr this.2.2⟩

theorem zipWith_mkARow_filter (hs fs : List Int) :
    (List.zipWith (fun h f => ARow.mk h f false) hs fs).filter
        (fun a => !a.archived)
      = List.zipWith (fun h f => ARow.mk h f false) hs fs := by
  apply List.filter_eq_self.mpr
  intro a ha
  simp [(zipWith_mkARow_mem hs fs a ha).1]

theorem zipWith_mkARow_map_p (hs fs : List Int) :
    (List.zipWith (fun h f => ARow.mk h f false) hs fs).map ARow.participant
      = hs.take fs.length := by
  induction hs generalizing fs with
  | nil => simp
  | cons h hs ih =>
    cases fs with
    | nil => simp
    | cons f fs => simp [ih]

theorem zipWith_mkARow_map_g (hs fs : List Int) :
    (List.zipWith (fun h f => ARow.mk h f false) hs fs).map ARow.gift
      = fs.take hs.length := by
  induction hs generalizing fs with
  | nil => cases fs <;> simp
  | cons h hs ih =>
    cases fs with
    | nil => simp
    | cons f fs => simp [ih]

theorem mem_map_participant_iff (s : Store) (x : Int) :
    x ∈ (activeAssocs s).map ARow.participant ↔
      hasActiveAssocP s x = true := by
  rw [hasActiveAssocP_iff]
  simp [List.mem_map]

theorem mem_map_gift_iff (s : Store) (x : Int) :
    x ∈ (activeAssocs s).map ARow.gift ↔ hasActiveAssocG s x = true := by
  rw [hasActiveAssocG_iff]
  simp [List.mem_map]

theorem create_random_store (sm sf : List Int → List Int) (s : Store)
    (hne : ((get_unassociated_participants s).isEmpty &&
      (get_unassociated_gifts s).isEmpty) = false) :
    (create_random_associations sm sf s).2 =
      (hfLoopStore (sm (get_unassociated_participants s)).reverse
        (sf (get_unassociated_gifts s)).reverse s).2.2.2 := by
  rw [create_random_associations]
  simp only [hne, Bool.false_eq_true, if_false]

theorem StoreInv_pairing (s : Store) (sm sf : List Int → List Int)
    (h : StoreInv s)
    (hm : (sm (get_unassociated_participants s)).Perm
      (get_unassociated_participants s))
    (hf : (sf (get_unassociated_gifts s)).Perm (get_unassociated_gifts s)) :
    StoreInv (create_random_associations sm sf s).2 := by
  obtain ⟨h1, h2, h3, h4⟩ := h
  by_cases hempty : ((get_unassociated_participants s).isEmpty &&
      (get_unassociated_gifts s).isEmpty) = true
  · have : (create_random_associations sm sf s).2 = s := by
      rw [create_random_associations]
      simp only [hempty, if_true]
    rw [this]
    exact ⟨h1, h2, h3, h4⟩
  · have hne : ((get_unassociated_participants s).isEmpty &&
        (get_unassociated_gifts s).isEmpty) = false := by
      simpa using hempty
    rw [create_random_store sm sf s hne]
    set hsl := (sm (get_unassociated_participants s)).reverse with hhsl
    set fsl := (sf (get_unassociated_gifts s)).reverse with hfsl
    have hndh : hsl.Nodup := by
      rw [hhsl, List.nodup_reverse]
      exact hm.symm.nodup (get_unassociated_participants_nodup s h1)
    have hndf : fsl.Nodup := by
      rw [hfsl, List.nodup_reverse]
      exact hf.symm.nodup (get_unassociated_gifts_nodup s h2)
    have hfreshh : ∀ x ∈ hsl, hasActiveAssocP s x = false := by
      intro x hmem
      apply mem_unassocP_hasP
      rw [hhsl, List.mem_reverse] at hmem
      exact hm.mem_iff.mp hmem
    have hfreshf : ∀ x ∈ fsl, hasActiveAssocG s x = false := by
      intro x hmem
      apply mem_unassocG_hasG
      rw [hfsl, List.mem_reverse] at hmem
      exact hf.mem_iff.mp hmem
    have hassocs := hfLoopStore_assocs hsl fsl s hndh hfreshh
    have hents := hfLoopStore_entities hsl fsl s
    have hact : activeAssocs (hfLoopStore hsl fsl s).2.2.2
        = activeAssocs s ++
          List.zipWith (fun h f => ARow.mk h f false) hsl fsl := by
      show (hfLoopStore hsl fsl s).2.2.2.associations.filter
        (fun a => !a.archived) = _
      rw [hassocs, List.filter_append, zipWith_mkARow_filter]
      rfl
    refine ⟨?_, ?_, ?_, ?_⟩
    · have : ActivePids (hfLoopStore hsl fsl s).2.2.2 = ActivePids s := by
        show ((hfLoopStore hsl fsl s).2.2.2.participants.filter
          (fun r => !r.archived)).map PRow.pid = _
        rw [hents.1]
        rfl
      rw [this]
      exact h1
    · have : ActiveGids (hfLoopStore hsl fsl s).2.2.2 = ActiveGids s := by
        show ((hfLoopStore hsl fsl s).2.2.2.gifts.filter
          (fun r => !r.archived)).map GRow.gid = _
        rw [hents.2]
        rfl
      rw [this]
      exact h2
    · rw [hact, List.map_append, zipWith_mkARow_map_p]
      refine List.Nodup.append h3 ((List.take_sublist _ _).nodup hndh) ?_
      intro x hx hx2
      have hxh : x ∈ hsl := (List.take_sublist _ _).subset hx2
      have hfx := hfreshh x hxh
      rw [(mem_map_participant_iff s x).mp hx] at hfx
      cases hfx
    · rw [hact, List.map_append, zipWith_mkARow_map_g]
      refine List.Nodup.append h4 ((List.take_sublist _ _).nodup hndf) ?_
      intro x hx hx2
      have hxf : x ∈ fsl := (List.take_sublist _ _).subset hx2
      have hfx := hfreshf x hxf
      rw [(mem_map_gift_iff s x).mp hx] at hfx
      cases hfx

theorem reachable_inv (s : Store) (h : Reachable s) : StoreInv s := by
  induction h with
  | empty =>
    refine ⟨?_, ?_, ?_, ?_⟩ <;> simp [ActivePids, ActiveGids, activeAssocs]
  | addP s p _ ih => exact StoreInv_addP s p ih
  | addPBulk s l _ ih => exact StoreInv_addPBulk s l ih
  | removeP s p _ ih => exact StoreInv_removeP s p ih
  | addG s g _ ih => exact StoreInv_addG s g ih
  | addGBulk s l _ ih => exact StoreInv_addGBulk s l ih
  | removeG s g _ ih => exact StoreInv_removeG s g ih
  | pairing s sm sf _ hm hf ih => exact StoreInv_pairing s sm sf ih hm hf
  | removeA s p _ ih => exact StoreInv_removeA s p ih
  | resetAll s _ _ =>
    refine ⟨?_, ?_, ?_, ?_⟩ <;>
      simp [reset, ActivePids, ActiveGids, activeAssocs]
  | resetAssoc s _ ih => exact StoreInv_resetAssoc s ih

/-- C4 (amended): in every reachable store state, each identifier is
referenced by at most one active pairing on the participant side and at
most one on the gift side; `add_association` refuses a second active
pairing for an already-paired *participant*.  (It does not check the
gift side — see the counterexample — gift-side uniqueness is maintained
because the pairing engine passes only distinct unpaired gifts.) -/
theorem store_pairing_uniqueness (s : Store) (h : Reachable s) :
    ((activeAssocs s).map ARow.participant).Nodup ∧
    ((activeAssocs s).map ARow.gift).Nodup ∧
    ∀ p g, hasActiveAssocP s p = true → add_association s p g = (false, s) := by
  obtain ⟨h1, h2, h3, h4⟩ := reachable_inv s h
  refine ⟨h3, h4, ?_⟩
  intro p g hp
  rw [add_association]
  cases hfind : findActiveAByP s p with
  | none =>
    rw [(findActiveAByP_none_iff s p).mp hfind] at hp
    cases hp
  | some a => rfl

theorem store_pairing_uniqueness_witness :
    ((activeAssocs (add_participant ⟨[], [], []⟩ 1).2).map
      ARow.participant).Nodup ∧
    ((activeAssocs (add_participant ⟨[], [], []⟩ 1).2).map ARow.gift).Nodup ∧
    ∀ p g, hasActiveAssocP (add_participant ⟨[], [], []⟩ 1).2 p = true →
      add_association (add_participant ⟨[], [], []⟩ 1).2 p g =
        (false, (add_participant ⟨[], [], []⟩ 1).2) :=
  store_pairing_uniqueness _ (Reachable.addP _ 1 Reachable.empty)

/-- C4 counterexample: `add_association` performs no check on the gift
side.  On a store where gift 5 is already actively paired with
participant 2, pairing participant 1 with gift 5 is accepted, leaving
two active pairings that reference gift 5. -/
theorem add_association_gift_unchecked :
    (add_association ⟨[⟨1, false⟩, ⟨2, false⟩], [⟨5, false⟩],
        [⟨2, 5, false⟩]⟩ 1 5).1 = true ∧
    ((add_association ⟨[⟨1, false⟩, ⟨2, false⟩], [⟨5, false⟩],
        [⟨2, 5, false⟩]⟩ 1 5).2.associations.filter
      (fun a => a.gift == 5 && !a.archived)).length = 2 := by
  constructor <;> rfl

/-! ### Archival under the uniqueness invariant -/

theorem archiveFirstP_active_eq (p : Int) : ∀ l : List PRow,
    ((l.filter (fun r => !r.archived)).map PRow.pid).Nodup →
    (archiveFirstP p l).filter (fun r => !r.archived)
      = (l.filter (fun r => !r.archived)).filter (fun r => !(r.pid == p))
  | [] => by intro _; rfl
  | r :: rest => by
    intro hnd
    simp only [archiveFirstP]
    by_cases h : (r.pid == p && !r.archived) = true
    · have hp : r.pid = p := by
        simp only [Bool.and_eq_true, beq_iff_eq] at h
        exact h.1
      have harch : r.archived = false := by
        simp only [Bool.and_eq_true, Bool.not_eq_true'] at h
        exact h.2
      have hcons : (r :: rest).filter (fun x => !x.archived)
          = r :: rest.filter (fun x => !x.archived) := by
        rw [List.filter_cons, if_pos (by simp [harch])]
      rw [if_pos h, hcons, List.filter_cons, if_neg (by simp),
        List.filter_cons, if_neg (by simp [hp])]
      rw [hcons] at hnd
      simp only [List.map_cons, List.nodup_cons] at hnd
      symm
      apply List.filter_eq_self.mpr
      intro b hb
      have hbm : b.pid ∈ (rest.filter (fun x => !x.archived)).map PRow.pid :=
        List.mem_map_of_mem _ hb
      have hne : b.pid ≠ r.pid := by
        intro he
        exact hnd.1 (he ▸ hbm)
      rw [hp] at hne
      simp [hne]
    · have hcons0 : archiveFirstP p (r :: rest)
          = r :: archiveFirstP p rest := by
        simp only [archiveFirstP]
        rw [if_neg h]
      rw [if_neg h, List.filter_cons, List.filter_cons]
      cases harch : r.archived with
      | true =>
        rw [if_neg (by simp [harch]), if_neg (by simp [harch])]
        apply archiveFirstP_active_eq p rest
        rwa [List.filter_cons, if_neg (by simp [harch])] at hnd
      | false =>
        rw [if_pos (by simp [harch]), if_pos (by simp [harch]),
          List.filter_cons]
        have hnp : r.pid ≠ p := by
          intro he
          apply h
          simp [he, harch]
        rw [if_pos (by simp [hnp])]
        have hnd' : ((rest.filter (fun x => !x.archived)).map
            PRow.pid).Nodup := by
          rw [List.filter_cons, if_pos (by simp [harch])] at hnd
          simp only [List.map_cons, List.nodup_cons] at hnd
          exact hnd.2
        rw [archiveFirstP_active_eq p rest hnd']

theorem archiveFirstG_active_eq (g : Int) : ∀ l : List GRow,
    ((l.filter (fun r => !r.archived)).map GRow.gid).Nodup →
    (archiveFirstG g l).filter (fun r => !r.archived)
      = (l.filter (fun r => !r.archived)).filter (fun r => !(r.gid == g))
  | [] => by intro _; rfl
  | r :: rest => by
    intro hnd
    simp only [archiveFirstG]
    by_cases h : (r.gid == g && !r.archived) = true
    · have hp : r.gid = g := by
        simp only [Bool.and_eq_true, beq_iff_eq] at h
        exact h.1
      have harch : r.archived = false := by
        simp only [Bool.and_eq_true, Bool.not_eq_true'] at h
        exact h.2
      have hcons : (r :: rest).filter (fun x => !x.archived)
          = r :: rest.filter (fun x => !x.archived) := by
        rw [List.filter_cons, if_pos (by simp [harch])]
      rw [if_pos h, hcons, List.filter_cons, if_neg (by simp),
        List.filter_cons, if_neg (by simp [hp])]
      rw [hcons] at hnd
      simp only [List.map_cons, List.nodup_cons] at hnd
      symm
      apply List.filter_eq_self.mpr
      intro b hb
      have hbm : b.gid ∈ (rest.filter (fun x => !x.archived)).map GRow.gid :=
        List.mem_map_of_mem _ hb
      have hne : b.gid ≠ r.gid := by
        intro he
        exact hnd.1 (he ▸ hbm)
      rw [hp] at hne
      simp [hne]
    · rw [if_neg h, List.filter_cons, List.filter_cons]
      cases harch : r.archived with
      | true =>
        rw [if_neg (by simp [harch]), if_neg (by simp [harch])]
        apply archiveFirstG_active_eq g rest
        rwa [List.filter_cons, if_neg (by simp [harch])] at hnd
      | false =>
        rw [if_pos (by simp [harch]), if_pos (by simp [harch]),
          List.filter_cons]
        have hnp : r.gid ≠ g := by
          intro he
          apply h
          simp [he, harch]
        rw [if_pos (by simp [hnp])]
        have hnd' : ((rest.filter (fun x => !x.archived)).map
            GRow.gid).Nodup := by
          rw [List.filter_cons, if_pos (by simp [harch])] at hnd
          simp only [List.map_cons, List.nodup_cons] at hnd
          exact hnd.2
        rw [archiveFirstG_active_eq g rest hnd']

theorem archiveFirstA_byP_active_eq (p : Int) : ∀ l : List ARow,
    ((l.filter (fun a => !a.archived)).map ARow.participant).Nodup →
    (archiveFirstA (fun a => a.participant == p) l).filter
        (fun a => !a.archived)
      = (l.filter (fun a => !a.archived)).filter
          (fun a => !(a.participant == p))
  | [] => by intro _; rfl
  | a :: rest => by
    intro hnd
    simp only [archiveFirstA]
    by_cases h : (a.participant == p && !a.archived) = true
    · have hp : a.participant = p := by
        simp only [Bool.and_eq_true, beq_iff_eq] at h
        exact h.1
      have harch : a.archived = false := by
        simp only [Bool.and_eq_true, Bool.not_eq_true'] at h
        exact h.2
      have hcons : (a :: rest).filter (fun x => !x.archived)
          = a :: rest.filter (fun x => !x.archived) := by
        rw [List.filter_cons, if_pos (by simp [harch])]
      rw [if_pos h, hcons, List.filter_cons, if_neg (by simp),
        List.filter_cons, if_neg (by simp [hp])]
      rw [hcons] at hnd
      simp only [List.map_cons, List.nodup_cons] at hnd
      symm
      apply List.filter_eq_self.mpr
      intro b hb
      have hbm : b.participant ∈
          (rest.filter (fun x => !x.archived)).map ARow.participant :=
        List.mem_map_of_mem _ hb
      have hne : b.participant ≠ a.participant := by
        intro he
        exact hnd.1 (he ▸ hbm)
      rw [hp] at hne
      simp [hne]
    · rw [if_neg h, List.filter_cons, List.filter_cons]
      cases harch : a.archived with
      | true =>
        rw [if_neg (by simp [harch]), if_neg (by simp [harch])]
        apply archiveFirstA_byP_active_eq p rest
        rwa [List.filter_cons, if_neg (by simp [harch])] at hnd
      | false =>
        rw [if_pos (by simp [harch]), if_pos (by simp [harch]),
          List.filter_cons]
        have hnp : a.participant ≠ p := by
          intro he
          apply h
          simp [he, harch]
        rw [if_pos (by simp [hnp])]
        have hnd' : ((rest.filter (fun x => !x.archived)).map
            ARow.participant).Nodup := by
          rw [List.filter_cons, if_pos (by simp [harch])] at hnd
          simp only [List.map_cons, List.nodup_cons] at hnd
          exact hnd.2
        rw [archiveFirstA_byP_active_eq p rest hnd']

theorem archiveFirstA_byG_active_eq (g : Int) : ∀ l : List ARow,
    ((l.filter (fun a => !a.archived)).map ARow.gift).Nodup →
    (archiveFirstA (fun a => a.gift == g) l).filter (fun a => !a.archived)
      = (l.filter (fun a => !a.archived)).filter (fun a => !(a.gift == g))
  | [] => by intro _; rfl
  | a :: rest => by
    intro hnd
    simp only [archiveFirstA]
    by_cases h : (a.gift == g && !a.archived) = true
    · have hp : a.gift = g := by
        simp only [Bool.and_eq_true, beq_iff_eq] at h
        exact h.1
      have harch : a.archived = false := by
        simp only [Bool.and_eq_true, Bool.not_eq_true'] at h
        exact h.2
      have hcons : (a :: rest).filter (fun x => !x.archived)
          = a :: rest.filter (fun x => !x.archived) := by
        rw [List.filter_cons, if_pos (by simp [harch])]
      rw [if_pos h, hcons, List.filter_cons, if_neg (by simp),
        List.filter_cons, if_neg (by simp [hp])]
      rw [hcons] at hnd
      simp only [List.map_cons, List.nodup_cons] at hnd
      symm
      apply List.filter_eq_self.mpr
      intro b hb
      have hbm : b.gift ∈
          (rest.filter (fun x => !x.archived)).map ARow.gift :=
        List.mem_map_of_mem _ hb
      have hne : b.gift ≠ a.gift := by
        intro he
        exact hnd.1 (he ▸ hbm)
      rw [hp] at hne
      simp [hne]
    · rw [if_neg h, List.filter_cons, List.filter_cons]
      cases harch : a.archived with
      | true =>
        rw [if_neg (by simp [harch]), if_neg (by simp [harch])]
        apply archiveFirstA_byG_active_eq g rest
        rwa [List.filter_cons, if_neg (by simp [harch])] at hnd
      | false =>
        rw [if_pos (by simp [harch]), if_pos (by simp [harch]),
          List.filter_cons]
        have hnp : a.gift ≠ g := by
          intro he
          apply h
          simp [he, harch]
        rw [if_pos (by simp [hnp])]
        have hnd' : ((rest.filter (fun x => !x.archived)).map
            ARow.gift).Nodup := by
          rw [List.filter_cons, if_pos (by simp [harch])] at hnd
          simp only [List.map_cons, List.nodup_cons] at hnd
          exact hnd.2
        rw [archiveFirstA_byG_active_eq g rest hnd']

theorem mem_unassocG_iff (s : Store) (g : Int) :
    g ∈ get_unassociated_gifts s ↔
      g ∈ ActiveGids s ∧ hasActiveAssocG s g = false := by
  simp only [get_unassociated_gifts, ActiveGids, List.mem_map,
    List.mem_filter]
  constructor
  · rintro ⟨r, ⟨⟨hr, ha⟩, hpred⟩, rfl⟩
    exact ⟨⟨r, ⟨hr, ha⟩, rfl⟩, by simpa using hpred⟩
  · rintro ⟨⟨r, ⟨hr, ha⟩, rfl⟩, hg⟩
    exact ⟨r, ⟨⟨hr, ha⟩, by simp [hg]⟩, rfl⟩

theorem mem_unassocP_iff (s : Store) (p : Int) :
    p ∈ get_unassociated_participants s ↔
      p ∈ ActivePids s ∧ hasActiveAssocP s p = false := by
  simp only [get_unassociated_participants, ActivePids, List.mem_map,
    List.mem_filter]
  constructor
  · rintro ⟨r, ⟨⟨hr, ha⟩, hpred⟩, rfl⟩
    exact ⟨⟨r, ⟨hr, ha⟩, rfl⟩, by simpa using hpred⟩
  · rintro ⟨⟨r, ⟨hr, ha⟩, rfl⟩, hg⟩
    exact ⟨r, ⟨⟨hr, ha⟩, by simp [hg]⟩, rfl⟩

/-- C5: archiving an active entity returns true, archives its active
pairing too, leaves the other side's entity table untouched, and the
counterpart of the archived pairing afterwards appears as unpaired; on a
missing identifier the operation returns false and changes nothing.
Both `remove_participant` and `remove_gift`, under the store invariant. -/
theorem remove_entity_spec (s : Store) (x : Int) (hinv : StoreInv s) :
    (x ∈ ActivePids s →
      (remove_participant s x).1 = true ∧
      (remove_participant s x).2.gifts = s.gifts ∧
      x ∉ ActivePids (remove_participant s x).2 ∧
      hasActiveAssocP (remove_participant s x).2 x = false ∧
      (∀ g, (∃ a ∈ activeAssocs s, a.participant = x ∧ a.gift = g) →
        g ∈ ActiveGids s →
        g ∈ get_unassociated_gifts (remove_participant s x).2)) ∧
    (x ∉ ActivePids s → remove_participant s x = (false, s)) ∧
    (x ∈ ActiveGids s →
      (remove_gift s x).1 = true ∧
      (remove_gift s x).2.participants = s.participants ∧
      x ∉ ActiveGids (remove_gift s x).2 ∧
      hasActiveAssocG (remove_gift s x).2 x = false ∧
      (∀ p, (∃ a ∈ activeAssocs s, a.gift = x ∧ a.participant = p) →
        p ∈ ActivePids s →
        p ∈ get_unassociated_participants (remove_gift s x).2)) ∧
    (x ∉ ActiveGids s → remove_gift s x = (false, s)) := by
  obtain ⟨h1, h2, h3, h4⟩ := hinv
  refine ⟨?_, ?_, ?_, ?_⟩
  · intro hx
    obtain ⟨r, hr⟩ : ∃ r, findActiveP s x = some r := by
      cases hfind : findActiveP s x with
      | none =>
        exact absurd ((findActiveP_none_iff s x).mp hfind) (by simp [hx])
      | some r => exact ⟨r, rfl⟩
    have heq : remove_participant s x =
        (true, { s with
          participants := archiveFirstP x s.participants,
          associations := archiveFirstA (fun a => a.participant == x)
            s.associations }) := by
      rw [remove_participant, hr]
    have hpids : ActivePids (remove_participant s x).2
        = ((s.participants.filter (fun r => !r.archived)).filter
            (fun r => !(r.pid == x))).map PRow.pid := by
      rw [heq]
      show ((archiveFirstP x s.participants).filter
        (fun r => !r.archived)).map PRow.pid = _
      rw [archiveFirstP_active_eq x s.participants h1]
    have hact : activeAssocs (remove_participant s x).2
        = (activeAssocs s).filter (fun a => !(a.participant == x)) := by
      rw [heq]
      show (archiveFirstA (fun a => a.participant == x)
        s.associations).filter (fun a => !a.archived) = _
      rw [archiveFirstA_byP_active_eq x s.associations h3]
      rfl
    refine ⟨by rw [heq], by rw [heq], ?_, ?_, ?_⟩
    · rw [hpids]
      rintro hmem
      rw [List.mem_map] at hmem
      obtain ⟨b, hb, rfl⟩ := hmem
      rw [List.mem_filter] at hb
      have hcon := hb.2
      simp at hcon
    · cases hb : hasActiveAssocP (remove_participant s x).2 x with
      | false => rfl
      | true =>
        exfalso
        obtain ⟨a, ha, hpa⟩ := (hasActiveAssocP_iff _ _).mp hb
        rw [hact, List.mem_filter] at ha
        simp [hpa] at ha
    · rintro g ⟨a, ha, hax, hag⟩ hgA
      apply (mem_unassocG_iff _ g).mpr
      have hgids : ActiveGids (remove_participant s x).2 = ActiveGids s := by
        rw [heq]
        rfl
      refine ⟨by rw [hgids]; exact hgA, ?_⟩
      cases hb : hasActiveAssocG (remove_participant s x).2 g with
      | false => rfl
      | true =>
        exfalso
        obtain ⟨b, hbmem, hbg⟩ := (hasActiveAssocG_iff _ _).mp hb
        rw [hact, List.mem_filter] at hbmem
        have hba : b = a :=
          List.inj_on_of_nodup_map h4 hbmem.1 ha (by rw [hbg, hag])
        rw [hba] at hbmem
        simp [hax] at hbmem
  · intro hx
    rw [remove_participant, (findActiveP_none_iff s x).mpr hx]
  · intro hx
    obtain ⟨r, hr⟩ : ∃ r, findActiveG s x = some r := by
      cases hfind : findActiveG s x with
      | none =>
        exact absurd ((findActiveG_none_iff s x).mp hfind) (by simp [hx])
      | some r => exact ⟨r, rfl⟩
    have heq : remove_gift s x =
        (true, { s with
          gifts := archiveFirstG x s.gifts,
          associations := archiveFirstA (fun a => a.gift == x)
            s.associations }) := by
      rw [remove_gift, hr]
    have hgids : ActiveGids (remove_gift s x).2
        = ((s.gifts.filter (fun r => !r.archived)).filter
            (fun r => !(r.gid == x))).map GRow.gid := by
      rw [heq]
      show ((archiveFirstG x s.gifts).filter
        (fun r => !r.archived)).map GRow.gid = _
      rw [archiveFirstG_active_eq x s.gifts h2]
    have hact : activeAssocs (remove_gift s x).2
        = (activeAssocs s).filter (fun a => !(a.gift == x)) := by
      rw [heq]
      show (archiveFirstA (fun a => a.gift == x)
        s.associations).filter (fun a => !a.archived) = _
      rw [archiveFirstA_byG_active_eq x s.associations h4]
      rfl
    refine ⟨by rw [heq], by rw [heq], ?_, ?_, ?_⟩
    · rw [hgids]
      rintro hmem
      rw [List.mem_map] at hmem
      obtain ⟨b, hb, rfl⟩ := hmem
      rw [List.mem_filter] at hb
      have hcon := hb.2
      simp at hcon
    · cases hb : hasActiveAssocG (remove_gift s x).2 x with
      | false => rfl
      | true =>
        exfalso
        obtain ⟨a, ha, hpa⟩ := (hasActiveAssocG_iff _ _).mp hb
        rw [hact, List.mem_filter] at ha
        simp [hpa] at ha
    · rintro p ⟨a, ha, hax, hag⟩ hpA
      apply (mem_unassocP_iff _ p).mpr
      have hpids : ActivePids (remove_gift s x).2 = ActivePids s := by
        rw [heq]
        rfl
      refine ⟨by rw [hpids]; exact hpA, ?_⟩
      cases hb : hasActiveAssocP (remove_gift s x).2 p with
      | false => rfl
      | true =>
        exfalso
        obtain ⟨b, hbmem, hbg⟩ := (hasActiveAssocP_iff _ _).mp hb
        rw [hact, List.mem_filter] at hbmem
        have hba : b = a :=
          List.inj_on_of_nodup_map h3 hbmem.1 ha (by rw [hbg, hag])
        rw [hba] at hbmem
        simp [hax] at hbmem
  · intro hx
    rw [remove_gift, (findActiveG_none_iff s x).mpr hx]

/-- A small store with one participant, one gift and one active pairing,
used to instantiate the archival theorem. -/
def demoStore : Store := ⟨[⟨1, false⟩], [⟨7, false⟩], [⟨1, 7, false⟩]⟩

theorem remove_entity_spec_witness :
    ((1 : Int) ∈ ActivePids demoStore →
      (remove_participant demoStore 1).1 = true ∧
      (remove_participant demoStore 1).2.gifts = demoStore.gifts ∧
      (1 : Int) ∉ ActivePids (remove_participant demoStore 1).2 ∧
      hasActiveAssocP (remove_participant demoStore 1).2 1 = false ∧
      (∀ g, (∃ a ∈ activeAssocs demoStore,
          a.participant = 1 ∧ a.gift = g) →
        g ∈ ActiveGids demoStore →
        g ∈ get_unassociated_gifts (remove_participant demoStore 1).2)) ∧
    ((1 : Int) ∉ ActivePids demoStore →
      remove_participant demoStore 1 = (false, demoStore)) ∧
    ((1 : Int) ∈ ActiveGids demoStore →
      (remove_gift demoStore 1).1 = true ∧
      (remove_gift demoStore 1).2.participants = demoStore.participants ∧
      (1 : Int) ∉ ActiveGids (remove_gift demoStore 1).2 ∧
      hasActiveAssocG (remove_gift demoStore 1).2 1 = false ∧
      (∀ p, (∃ a ∈ activeAssocs demoStore, a.gift = 1 ∧ a.participant = p) →
        p ∈ ActivePids demoStore →
        p ∈ get_unassociated_participants (remove_gift demoStore 1).2)) ∧
    ((1 : Int) ∉ ActiveGids demoStore →
      remove_gift demoStore 1 = (false, demoStore)) :=
  remove_entity_spec demoStore 1 ⟨by decide, by decide, by decide, by decide⟩

end RandomGift
